import Mathlib

/-!
Verification of the War Room deliberation orchestrator (`server.js`).

The development shallowly embeds the orchestrator's data model and
operations: the directive extractors (`extractSearchQueries`,
`extractEscalations`), the context builder (`buildContext`), the turn
executor (`runAgentTurn`), the scheduler loop (`runDeliberation` with its
escalation-wait gate), and the WebSocket operation handlers
(`escalation-response`, `stop-session`, `human-message`).

External collaborators (Model Gateway, Search Gateway, the wall clock and
the id generator) are modelled as oracle functions supplied in a `Config`;
external calls arriving between suspension points of the event loop are
modelled as an `Env` stream of operations applied at the loop checkpoints.
JavaScript strings are modelled as Lean `String`s (lists of characters);
the two sentinel-token regex scanners are modelled character by character,
including the backtracking behaviour of `\s*(.+?)(?:\n|$)`.
-/

namespace WarRoom

/-- JavaScript `\s` whitespace class, restricted to the ASCII range
(tab, line feed, vertical tab, form feed, carriage return, space). -/
def isJsSpace (c : Char) : Bool :=
  c = ' ' || c = '\t' || c = '\n' || c = '\r' || c = Char.ofNat 11 || c = Char.ofNat 12

/-- JavaScript `String.prototype.trim`: drop whitespace from both ends. -/
def trimChars (l : List Char) : List Char :=
  ((l.dropWhile isJsSpace).reverse.dropWhile isJsSpace).reverse

/-- Drop everything up to and including the first occurrence of `marker`,
returning the suffix after it; `none` when the marker does not occur.
This models the regex engine searching for the literal part of
`MARKER:\s*(.+?)(?:\n|$)` left to right. -/
def splitAtMarker (marker : List Char) : List Char → Option (List Char)
  | [] => none
  | c :: rest =>
    if marker.isPrefixOf (c :: rest) then some ((c :: rest).drop marker.length)
    else splitAtMarker marker rest

/-- Model of matching `\s*(.+?)(?:\n|$)` at the position just after the
marker, returning the captured group and the unconsumed suffix.
With maximal-munch `\s*` the lazy group captures from the first
non-whitespace character to the end of the line.  When only whitespace
remains, the engine backtracks `\s*` until the group can start at the
last whitespace character that is not a line feed (`.` cannot match
`\n`); if every remaining character is a line feed the match fails. -/
def captureAfter (rest : List Char) : Option (List Char × List Char) :=
  let ws := rest.takeWhile isJsSpace
  let t := rest.dropWhile isJsSpace
  match t with
  | [] =>
    match (ws.filter (fun c => !(c = '\n'))).getLast? with
    | some c => some ([c], (ws.reverse.takeWhile (fun c => c = '\n')).drop 1)
    | none => none
  | _ =>
    let cap := t.takeWhile (fun c => !(c = '\n'))
    let rem := t.drop cap.length
    some (cap, match rem with | '\n' :: r => r | r => r)

/-- Successive non-overlapping matches of `MARKER\s*(.+?)(?:\n|$)` over the
text, as `regex.exec` with the `g` flag produces them.  Each match consumes
at least the marker itself, so `text.length + 1` units of fuel always
suffice; the fuel only makes the recursion structural. -/
def extractCapturesFuel (marker : List Char) : Nat → List Char → List (List Char)
  | 0, _ => []
  | fuel + 1, text =>
    match splitAtMarker marker text with
    | none => []
    | some rest =>
      match captureAfter rest with
      | none => []
      | some (cap, rem) => cap :: extractCapturesFuel marker fuel rem

/-- All captures of the marker regex over `text`. -/
def extractCaptures (marker : List Char) (text : List Char) : List (List Char) :=
  extractCapturesFuel marker (text.length + 1) text

/-- JavaScript `q.replace(/^\[|\]$/g, '')`: remove one leading `[` and one
trailing `]` when present. -/
def stripBrackets (s : List Char) : List Char :=
  let s1 := match s with | '[' :: r => r | r => r
  match s1.reverse with | ']' :: r => r.reverse | _ => s1

/-- Source `extractSearchQueries` (server.js lines 444-453): captures of
`/SEARCH:\s*(.+?)(?:\n|$)/g`, each trimmed and bracket-stripped, kept when
longer than 2 characters, truncated to at most 5 queries. -/
def extractSearchQueries (text : String) : List String :=
  ((((extractCaptures ("SEARCH:".toList) text.toList).map
      (fun c => stripBrackets (trimChars c))).filter
      (fun q => 2 < q.length)).take 5).map (fun l => String.mk l)

/-- Question texts scanned by source `extractEscalations` (server.js lines
496-507): captures of `/NEED_HUMAN_INPUT:\s*(.+?)(?:\n|$)/g`, trimmed.
The source function also mints the id and timestamp of each resulting
escalation record; that part is modelled by `mintEscalations` below. -/
def extractEscalationQuestions (text : String) : List String :=
  (extractCaptures ("NEED_HUMAN_INPUT:".toList) text.toList).map
    (fun c => String.mk (trimChars c))

/-- Agent state enum tracked per agent while a session is active. -/
inductive AgState
  | idle
  | thinking
  | searching
  | speaking
deriving DecidableEq

/-- One record of the `AGENTS` roster (server.js lines 155-317).  The
`systemPrompt` strings of the source are opaque configuration per the
system design (prompt wording is flavor text, not structure); they are
modelled as short opaque placeholders. -/
structure Agent where
  id : String
  name : String
  emoji : String
  color : String
  role : String
  systemPrompt : String
deriving DecidableEq

/-- Roster entry 1. -/
def processArchitect : Agent :=
  { id := "process-architect", name := "Process Architect", emoji := "🎯", color := "#00ff41",
    role := "Metacognitive Conductor", systemPrompt := "prompt:process-architect" }

/-- Roster entry 2. -/
def systemsSynthesizer : Agent :=
  { id := "systems-synthesizer", name := "Systems Synthesizer", emoji := "🔗", color := "#00e639",
    role := "Boundary Spanner", systemPrompt := "prompt:systems-synthesizer" }

/-- Roster entry 3. -/
def divergentGenerator : Agent :=
  { id := "divergent-generator", name := "Divergent Generator", emoji := "💡", color := "#00cc30",
    role := "Creative Disruptor", systemPrompt := "prompt:divergent-generator" }

/-- Roster entry 4. -/
def convergentEvaluator : Agent :=
  { id := "convergent-evaluator", name := "Convergent Evaluator", emoji := "⚖️", color := "#00b328",
    role := "Analytical Engine", systemPrompt := "prompt:convergent-evaluator" }

/-- Roster entry 5. -/
def redTeamer : Agent :=
  { id := "red-teamer", name := "Red Teamer", emoji := "🔴", color := "#00991f",
    role := "Adversarial Stress-Tester", systemPrompt := "prompt:red-teamer" }

/-- Roster entry 6. -/
def quantitativeExpert : Agent :=
  { id := "quantitative-expert", name := "Quantitative Expert", emoji := "📐", color := "#008017",
    role := "Technical Depth", systemPrompt := "prompt:quantitative-expert" }

/-- Roster entry 7. -/
def qualitativeExpert : Agent :=
  { id := "qualitative-expert", name := "Qualitative Expert", emoji := "📜", color := "#00660f",
    role := "Institutional Depth", systemPrompt := "prompt:qualitative-expert" }

/-- Roster entry 8. -/
def researchScout : Agent :=
  { id := "research-scout", name := "Research Scout", emoji := "🔍", color := "#00ff41",
    role := "Information Architect", systemPrompt := "prompt:research-scout" }

/-- The fixed 8-agent roster, in source order. -/
def AGENTS : List Agent :=
  [ processArchitect, systemsSynthesizer, divergentGenerator, convergentEvaluator,
    redTeamer, quantitativeExpert, qualitativeExpert, researchScout ]

/-- One phase of the fixed phase plan. -/
structure Phase where
  id : String
  name : String
  agents : List String
deriving DecidableEq

/-- The fixed phase plan `PHASES` (server.js lines 322-328). -/
def PHASES : List Phase :=
  [ { id := "framing", name := "Problem Framing",
      agents := ["process-architect", "research-scout", "systems-synthesizer"] },
    { id := "divergence", name := "Divergence",
      agents := ["divergent-generator", "systems-synthesizer", "quantitative-expert", "qualitative-expert"] },
    { id := "convergence", name := "Convergence",
      agents := ["convergent-evaluator", "quantitative-expert", "qualitative-expert", "research-scout"] },
    { id := "red-team", name := "Red Team",
      agents := ["red-teamer", "convergent-evaluator", "process-architect"] },
    { id := "synthesis", name := "Synthesis",
      agents := ["process-architect"] } ]

/-- Display name of `PHASES[phase]`; the source indexes the array directly
and is only ever called with an in-range index. -/
def phaseNameOf (phase : Nat) : String :=
  ((PHASES.get? phase).map Phase.name).getD ""

/-- An uploaded file reference attached to a session.  `type` is the mime
string (empty models a falsy value); `content` is the extracted text,
`none` for binary files. -/
structure FileRef where
  id : String
  name : String
  size : Nat
  type : String
  content : Option String
deriving DecidableEq

/-- An agent message, as kept in `session.messages` and inserted into the
`messages` table (the row adds only the session id, which in this
single-session model is the world's session). -/
structure Msg where
  id : String
  agentId : String
  agentName : String
  agentEmoji : String
  agentColor : String
  content : String
  phase : String
  timestamp : Nat
deriving DecidableEq

/-- An in-memory escalation record as built by source `extractEscalations`
and mutated by the `escalation-response` handler. -/
structure Esc where
  id : String
  agentId : String
  question : String
  sessionId : String
  answered : Bool
  answer : Option String
  createdAt : Nat
deriving DecidableEq

/-- Escalation status column of the `escalations` table. -/
inductive EscStatus
  | pending
  | answered
deriving DecidableEq

/-- A row of the `escalations` table (schema at server.js lines 79-90). -/
structure DbEsc where
  id : String
  agentId : String
  agentName : String
  agentEmoji : String
  question : String
  answer : Option String
  status : EscStatus
  createdAt : Nat
  answeredAt : Option Nat
deriving DecidableEq

/-- Source `stmts.insertEscalation` (server.js line 112): a fresh row with
`answer NULL`, `status 'pending'`, `answered_at NULL`. -/
def insertEscRow (eid aid aname aemoji q : String) (t : Nat) : DbEsc :=
  { id := eid, agentId := aid, agentName := aname, agentEmoji := aemoji,
    question := q, answer := none, status := .pending, createdAt := t, answeredAt := none }

/-- Source `stmts.answerEscalation` (server.js line 113): set
`status = 'answered'`, the answer text, and `answered_at`. -/
def answerEscRow (r : DbEsc) (a : String) (t : Nat) : DbEsc :=
  { r with status := .answered, answer := some a, answeredAt := some t }

/-- A human interjection (`human_messages` table and
`session.humanMessages`). -/
structure HumanMsg where
  id : String
  content : String
  timestamp : Nat
deriving DecidableEq

/-- One chat message handed to the Model Gateway. -/
structure ChatMsg where
  role : String
  content : String
deriving DecidableEq

/-- One source entry of a Tavily response (`data.results[i]`). -/
structure TavilyResult where
  title : String
  url : String
  content : String
  score : Nat
deriving DecidableEq

/-- A successful Tavily search response body. -/
structure TavilyData where
  answer : Option String
  results : List TavilyResult
deriving DecidableEq

/-- One element of the list built by source `executeSearches`. -/
structure SearchSource where
  title : String
  url : String
  snippet : String
  score : Nat
deriving DecidableEq

/-- Per-query outcome built by source `executeSearches` (server.js lines
455-476); `error = true` models the `{query, answer: null, sources: [],
error: 'Search unavailable'}` failure marker. -/
structure SearchOutcome where
  query : String
  answer : Option String
  sources : List SearchSource
  error : Bool
deriving DecidableEq

/-- Notifications fanned out through `broadcast`; each source payload also
carries the session id, which in this single-session model is implicit. -/
inductive Event
  | agentState (agentId : String) (state : AgState)
  | searchStarted (agentId : String) (queries : List String)
  | searchComplete (agentId : String) (resultCount : Nat)
  | message (m : Msg)
  | escalation (e : Esc) (agentName agentEmoji : String)
  | error (agentId : String) (message : String)
  | phaseChange (phase : Nat) (phaseName : String) (phaseAgents : List String)
  | waitingForHuman (pendingCount : Nat)
  | escalationTimeout
  | escalationAnswered (escalationId : String) (answer : String)
  | sessionStopped
  | humanMessage (id : String) (content : String)
  | deliberationComplete (totalMsgs synthCount qaCount : Nat)
deriving DecidableEq

/-- In-memory session object built by `createSession` (server.js lines
334-355) and owned by the deliberation loop. -/
structure Session where
  sid : String
  problem : String
  files : List FileRef
  phase : Nat
  messages : List Msg
  humanMessages : List HumanMsg
  escalations : List Esc
  agentStates : String → AgState
  active : Bool
  createdAt : Nat

/-- Durable state of the single modelled session: its rows in the
`messages`, `escalations` and `human_messages` tables plus the session
row's mutable columns. -/
structure Db where
  messages : List Msg
  escalations : List DbEsc
  humanMessages : List HumanMsg
  files : List FileRef
  sessionActive : Bool
  sessionPhase : Nat

/-- The whole observable world for one session: the in-memory session, its
presence in the `activeSessions` registry, its durable rows, the stream of
broadcast events, and the cursors of the id/clock/environment oracles. -/
structure World where
  session : Session
  inRegistry : Bool
  db : Db
  events : List Event
  envIdx : Nat
  idIdx : Nat
  clockIdx : Nat

/-- External collaborators as oracles: the Model Gateway (`callAnthropic`;
an `Except.error` models a thrown/non-success call), whether a Search
Gateway is configured (`TAVILY_API_KEY`), the Search Gateway itself
(`tavilySearch`; `none` models a failed/unavailable search), the locale
time formatter used for interjection timestamps, the wall clock
(`Date.now()` as a sequence of readings) and the id generator (`genId`). -/
structure Config where
  gw : String → List ChatMsg → Except String String
  tavily : Bool
  search : String → Option TavilyData
  fmtTime : Nat → String
  clock : Nat → Nat
  genId : Nat → String

/-- Append one broadcast notification. -/
def emit (e : Event) (w : World) : World :=
  { w with events := w.events ++ [e] }

/-- Draw a fresh id from the id oracle (`genId()`). -/
def freshId (cfg : Config) (w : World) : String × World :=
  (cfg.genId w.idIdx, { w with idIdx := w.idIdx + 1 })

/-- Draw the next wall-clock reading (`Date.now()`). -/
def freshNow (cfg : Config) (w : World) : Nat × World :=
  (cfg.clock w.clockIdx, { w with clockIdx := w.clockIdx + 1 })

/-- Set one agent's transient state and broadcast the `agent-state`
notification, as every `session.agentStates[agentId] = ...; broadcast(...)`
pair in the source does. -/
def setState (aid : String) (st : AgState) (w : World) : World :=
  emit (.agentState aid st)
    { w with session := { w.session with
        agentStates := fun x => if x = aid then st else w.session.agentStates x } }

/-- Source `executeSearches` (server.js lines 455-476): run each query
against the Search Gateway; a `none` response is recorded as a per-query
failure marker.  A falsy (`none` or empty) `answer` becomes `none`, and
each source snippet is the first 500 characters of the result content. -/
def executeSearches (cfg : Config) (qs : List String) : List SearchOutcome :=
  qs.map (fun q =>
    match cfg.search q with
    | some d =>
      { query := q,
        answer := Option.filter (fun a => !(a = "")) d.answer,
        sources := d.results.map (fun r =>
          { title := r.title, url := r.url, snippet := r.content.take 500, score := r.score }),
        error := false }
    | none => { query := q, answer := none, sources := [], error := true })

/-- Body text for one search outcome inside `formatSearchResults`. -/
def formatOneSearch (i : Nat) (r : SearchOutcome) : String :=
  "\n--- Search " ++ toString (i + 1) ++ ": \"" ++ r.query ++ "\" ---\n" ++
  (if r.error then "[Search unavailable]\n"
   else
     (match r.answer with | some a => "Summary: " ++ a ++ "\n" | none => "") ++
     (if r.sources.isEmpty then ""
      else "Sources:\n" ++ String.join ((r.sources.enum).map (fun p =>
        "  " ++ toString (p.1 + 1) ++ ". " ++ p.2.title ++ "\n     " ++ p.2.url ++
        "\n     " ++ p.2.snippet ++ "\n"))))

/-- Source `formatSearchResults` (server.js lines 478-494). -/
def formatSearchResults (results : List SearchOutcome) : String :=
  if results.isEmpty then ""
  else
    "\n\n=== SEARCH RESULTS ===\n" ++
    String.join ((results.enum).map (fun p => formatOneSearch p.1 p.2)) ++
    "\n=== END SEARCH RESULTS ===\n"

/-- Aggregate result count reported by the `search-complete` notification:
`searchResults.reduce((n, r) => n + r.sources.length, 0)`. -/
def totalSources (results : List SearchOutcome) : Nat :=
  results.foldl (fun n r => n + r.sources.length) 0

/-- Source `buildContext` (server.js lines 509-566).  Pure function of the
session snapshot, target agent and phase index; `fmtTime` stands for the
locale time formatter used on interjection timestamps.  The final branch
appends the synthesis instructions exactly when this is the last phase and
the target agent is the process architect. -/
def buildContext (fmtTime : Nat → String) (s : Session) (agentId : String) (phase : Nat) : List ChatMsg :=
  let agent := (AGENTS.find? (fun a => a.id = agentId)).getD
    { id := "", name := "", emoji := "", color := "", role := "", systemPrompt := "" }
  let phaseName := phaseNameOf phase
  let priorMessages := String.intercalate "\n\n" (s.messages.map (fun m =>
    "[" ++ (match AGENTS.find? (fun x => x.id = m.agentId) with
            | some a => a.name
            | none => "Human") ++ "]: " ++ m.content))
  let answeredEscalations := String.intercalate "\n"
    ((s.escalations.filter (fun e => e.answered && e.agentId = agentId)).map (fun e =>
      "Human answered your question \"" ++ e.question ++ "\": " ++ e.answer.getD "null"))
  let otherAnswers := String.intercalate "\n"
    ((s.escalations.filter (fun e => e.answered && !(e.agentId = agentId))).map (fun e =>
      "[Human responded to " ++ (match AGENTS.find? (fun x => x.id = e.agentId) with
                                 | some a => a.name
                                 | none => "agent") ++ "]: Q: \"" ++ e.question ++
      "\" A: " ++ e.answer.getD "null"))
  let base := "PROBLEM: " ++ s.problem ++ "\n\nCURRENT PHASE: " ++ phaseName ++ "\n\n"
  let withFiles := base ++
    (if s.files.isEmpty then ""
     else "ATTACHED FILES:\n" ++ String.join (s.files.map (fun f =>
       "--- " ++ f.name ++ " (" ++ (if f.type = "" then "unknown" else f.type) ++ ") ---\n" ++
       (match f.content with
        | some c => c.take 10000 ++ (if 10000 < c.length then "\n[...truncated]" else "") ++ "\n"
        | none => "[Binary file, " ++ toString f.size ++ " bytes]\n"))) ++ "\n")
  let withHuman := withFiles ++
    (if s.humanMessages.isEmpty then ""
     else "HUMAN INTERJECTIONS (from the problem owner):\n" ++
       String.join (s.humanMessages.map (fun hm =>
         "[Human @ " ++ fmtTime hm.timestamp ++ "]: " ++ hm.content ++ "\n")) ++ "\n")
  let withPrior := withHuman ++
    (if priorMessages = "" then "" else "PRIOR DELIBERATION:\n" ++ priorMessages ++ "\n\n")
  let withAnswered := withPrior ++
    (if answeredEscalations = "" then ""
     else "YOUR ESCALATION ANSWERS:\n" ++ answeredEscalations ++ "\n\n")
  let withShared := withAnswered ++
    (if otherAnswers = "" then "" else "SHARED HUMAN INPUT:\n" ++ otherAnswers ++ "\n\n")
  let directive := withShared ++
    "Now provide your contribution as " ++ agent.name ++ " (" ++ agent.role ++
    ") for the " ++ phaseName ++ " phase. Stay in character. Be concise but thorough."
  let userContent :=
    if phase = PHASES.length - 1 && agentId = "process-architect" then
      directive ++
      "\n\nThis is the FINAL SYNTHESIS phase. Deliver a comprehensive summary that includes:\n1. Key findings and recommendations\n2. Confidence levels (high/medium/low) for each recommendation\n3. Key uncertainties and open questions\n4. Dissenting views and their merit\n5. Recommended next steps\nFormat this as a clear, actionable brief."
    else directive
  [{ role := "user", content := userContent }]

/-- The instruction text of the second (synthesis) Model Gateway call of
the search sub-protocol, with the formatted search results spliced in
(server.js lines 610-617). -/
def synthesisInstruction (resultsText : String) : String :=
  "Your search queries have been executed. Here are the results:" ++ resultsText ++
  "\n\nNow synthesize these findings into a comprehensive research brief for the team. Include:\n1. Key findings from the search results\n2. Source quality assessment\n3. How this information relates to the problem\n4. Remaining knowledge gaps\n\nDo NOT include any SEARCH: markers in this response."

/-- Mint one in-memory escalation record per extracted question, as the
loop body of source `extractEscalations` does for each regex match:
`id = genId()`, `createdAt = Date.now()`, answered `false`, answer `null`.
The id and clock oracles are consumed starting at cursors `i` and `c`. -/
def mintEscalations (cfg : Config) (agentId sid : String) : List String → Nat → Nat → List Esc
  | [], _, _ => []
  | q :: rest, i, c =>
    { id := cfg.genId i, agentId := agentId, question := q, sessionId := sid,
      answered := false, answer := none, createdAt := cfg.clock c } ::
    mintEscalations cfg agentId sid rest (i + 1) (c + 1)

/-- The `escalations.forEach` block of `runAgentTurn` (server.js lines
642-646): push each escalation into the session, insert its pending row,
and broadcast the `escalation` notification. -/
def pushEscalations (agent : Agent) : List Esc → World → World
  | [], w => w
  | e :: rest, w =>
    let w1 := { w with session := { w.session with escalations := w.session.escalations ++ [e] } }
    let w2 := { w1 with db := { w1.db with escalations := w1.db.escalations ++
      [insertEscRow e.id e.agentId agent.name agent.emoji e.question e.createdAt] } }
    pushEscalations agent rest (emit (.escalation e agent.name agent.emoji) w2)

/-- Tail of a successful turn (server.js lines 624-651): mark `speaking`,
persist and broadcast the message, extract/persist/broadcast escalations,
mark `idle`.  The closing 500 ms pacing pause has no modelled effect. -/
def finishTurn (cfg : Config) (agent : Agent) (agentId phaseName response : String) (w : World) : World :=
  let w1 := setState agentId .speaking w
  let t := (freshNow cfg w1).1
  let w2 := (freshNow cfg w1).2
  let mid := (freshId cfg w2).1
  let w3 := (freshId cfg w2).2
  let m : Msg := { id := mid, agentId := agentId, agentName := agent.name,
                   agentEmoji := agent.emoji, agentColor := agent.color,
                   content := response, phase := phaseName, timestamp := t }
  let w4 := { w3 with session := { w3.session with messages := w3.session.messages ++ [m] } }
  let w5 := { w4 with db := { w4.db with messages := w4.db.messages ++ [m] } }
  let w6 := emit (.message m) w5
  let qs := extractEscalationQuestions response
  let escs := mintEscalations cfg agentId w6.session.sid qs w6.idIdx w6.clockIdx
  let w7 := { w6 with idIdx := w6.idIdx + qs.length, clockIdx := w6.clockIdx + qs.length }
  let w8 := pushEscalations agent escs w7
  setState agentId .idle w8

/-- The message record a successful turn persists, in terms of the world
at the start of `finishTurn` (the oracles are read before the escalation
scan consumes any further ids or clock readings). -/
def mkTurnMsg (cfg : Config) (agent : Agent) (aid ph r : String) (w : World) : Msg :=
  { id := cfg.genId w.idIdx, agentId := aid, agentName := agent.name,
    agentEmoji := agent.emoji, agentColor := agent.color,
    content := r, phase := ph, timestamp := cfg.clock w.clockIdx }

/-- The escalation records a successful turn creates, in terms of the
world at the start of `finishTurn` (the message minting consumed one id
and one clock reading first). -/
def turnEscs (cfg : Config) (aid r : String) (w : World) : List Esc :=
  mintEscalations cfg aid w.session.sid (extractEscalationQuestions r)
    (w.idIdx + 1) (w.clockIdx + 1)

/-- The conversation of the second (synthesis) Model Gateway call of the
search sub-protocol (server.js lines 610-617): the original context, the
first response as the assistant turn, and the synthesis instruction with
the formatted search results. -/
def synthMessages (cfg : Config) (ctx : List ChatMsg) (r1 : String) : List ChatMsg :=
  ctx ++
  [ { role := "assistant", content := r1 },
    { role := "user",
      content := synthesisInstruction
        (formatSearchResults (executeSearches cfg (extractSearchQueries r1))) } ]

/-- The `catch` block of `runAgentTurn` (server.js lines 652-657): revert
the agent to `idle` and broadcast an `error` notification naming the agent
and the failure reason; no message is produced. -/
def failTurn (agentId : String) (agent : Agent) (reason : String) (w : World) : World :=
  let w1 := setState agentId .idle w
  emit (.error agentId (agent.name ++ " encountered an error: " ++ reason)) w1

/-- Source `runAgentTurn` (server.js lines 568-658): one agent's turn,
including the two-pass search sub-protocol of the research scout when a
Search Gateway is configured.  A gateway `Except.error` at either call
takes the catch path.  An unknown agent id would crash the source on the
`agent.systemPrompt` dereference; the loop only ever passes roster ids,
and the model leaves the world unchanged in that vacuous case. -/
def runAgentTurn (cfg : Config) (w : World) (agentId : String) (phase : Nat) : World :=
  match AGENTS.find? (fun a => a.id = agentId) with
  | none => w
  | some agent =>
    let w1 := setState agentId .thinking w
    let ctx := buildContext cfg.fmtTime w1.session agentId phase
    match cfg.gw agent.systemPrompt ctx with
    | .error e => failTurn agentId agent e w1
    | .ok r1 =>
      if agentId = "research-scout" && cfg.tavily then
        let qs := extractSearchQueries r1
        if qs.isEmpty then finishTurn cfg agent agentId (phaseNameOf phase) r1 w1
        else
          let w2 := setState agentId .searching w1
          let w3 := emit (.searchStarted agentId qs) w2
          let results := executeSearches cfg qs
          let w4 := emit (.searchComplete agentId (totalSources results)) w3
          let w5 := setState agentId .thinking w4
          match cfg.gw agent.systemPrompt (synthMessages cfg ctx r1) with
          | .error e => failTurn agentId agent e w5
          | .ok r2 => finishTurn cfg agent agentId (phaseNameOf phase) r2 w5
      else finishTurn cfg agent agentId (phaseNameOf phase) r1 w1

/-- Update the first escalation whose id matches, setting it answered with
the given answer — the in-place mutation of the object returned by
`session.escalations.find(e => e.id === msg.escalationId)`. -/
def answerFirst (eid ans : String) : List Esc → List Esc
  | [] => []
  | e :: rest =>
    if e.id = eid then { e with answered := true, answer := some ans } :: rest
    else e :: answerFirst eid ans rest

/-- The `escalation-response` WebSocket handler (server.js lines 804-815).
The session is looked up only in the `activeSessions` registry; a missing
session or a missing escalation id is a silent no-op.  A found escalation
is answered unconditionally — there is no already-answered check — and the
`answerEscalation` statement updates its row with the answer timestamp
`now` (`Date.now()` at the handler). -/
def handleEscalationResponse (w : World) (sid eid answer : String) (now : Nat) : World :=
  if w.inRegistry && w.session.sid = sid then
    match w.session.escalations.find? (fun e => e.id = eid) with
    | none => w
    | some _ =>
      let memEscs := answerFirst eid answer w.session.escalations
      let dbEscs := w.db.escalations.map (fun r => if r.id = eid then answerEscRow r answer now else r)
      let w1 := { w with session := { w.session with escalations := memEscs } }
      let w2 := { w1 with db := { w1.db with escalations := dbEscs } }
      emit (.escalationAnswered eid answer) w2
  else w

/-- The `stop-session` WebSocket handler (server.js lines 864-873): when
the session is in the active registry, clear its `active` flag in memory
and in the database, drop it from the registry and broadcast
`session-stopped`; otherwise do nothing. -/
def handleStop (w : World) (sid : String) : World :=
  if w.inRegistry && w.session.sid = sid then
    emit .sessionStopped
      { w with session := { w.session with active := false },
               db := { w.db with sessionActive := false },
               inRegistry := false }
  else w

/-- The `human-message` WebSocket handler (server.js lines 835-862),
restricted to the interjection itself: mint the id, push into the live
session's list when the session is registered, insert the row and
broadcast.  The post-completion follow-up turn it may additionally spawn
is asynchronous and outside the claims under verification. -/
def handleHumanMessage (cfg : Config) (w : World) (sid content : String) (now : Nat) : World :=
  if w.session.sid = sid then
    let hid := (freshId cfg w).1
    let w1 := (freshId cfg w).2
    let hm : HumanMsg := { id := hid, content := content, timestamp := now }
    let w2 := if w1.inRegistry
      then { w1 with session := { w1.session with
               humanMessages := w1.session.humanMessages ++ [hm] } }
      else w1
    emit (.humanMessage hid content)
      { w2 with db := { w2.db with humanMessages := w2.db.humanMessages ++ [hm] } }
  else w

/-- External inbound operations that can interleave with the deliberation
loop at its suspension points.  Each carries the wall-clock reading of the
moment it executes. -/
inductive ExtOp
  | answerEsc (sid eid answer : String) (now : Nat)
  | stop (sid : String)
  | humanMsg (sid content : String) (now : Nat)

/-- Dispatch one external operation to its handler. -/
def applyOp (cfg : Config) (w : World) : ExtOp → World
  | .answerEsc sid eid a t => handleEscalationResponse w sid eid a t
  | .stop sid => handleStop w sid
  | .humanMsg sid c t => handleHumanMessage cfg w sid c t

/-- A schedule of external operations: the batch arriving during the n-th
suspension window of the loop. -/
def Env : Type := Nat → List ExtOp

/-- Apply the next batch of externally arriving operations, advancing the
environment cursor. -/
def applyEnv (cfg : Config) (env : Env) (w : World) : World :=
  (env w.envIdx).foldl (applyOp cfg) { w with envIdx := w.envIdx + 1 }

/-- The escalation poll loop (server.js lines 676-680): while some
escalation is unanswered, the wait ceiling of 300000 ms is not reached and
the session is active, sleep 2000 ms (during which external operations may
arrive) and add 2000 to `waited`.  At most 150 iterations can run before
`waited` reaches the ceiling, so the structural fuel of 151 used at the
call site never runs out. -/
def pollLoop (cfg : Config) (env : Env) : Nat → World → Nat → World × Nat
  | 0, w, waited => (w, waited)
  | fuel + 1, w, waited =>
    if (w.session.escalations.any (fun e => !e.answered)) && waited < 300000 && w.session.active then
      pollLoop cfg env fuel (applyEnv cfg env w) (waited + 2000)
    else (w, waited)

/-- The escalation gate run before each agent turn (server.js lines
673-684): when pending escalations exist, broadcast `waiting-for-human`
with the pending count, poll, and broadcast `escalation-timeout` when the
accumulated wait reached the ceiling. -/
def gate (cfg : Config) (env : Env) (w : World) : World :=
  let pending := w.session.escalations.filter (fun e => !e.answered)
  if 0 < pending.length then
    let w1 := emit (.waitingForHuman pending.length) w
    let p := pollLoop cfg env 151 w1 0
    if 300000 ≤ p.2 then emit .escalationTimeout p.1 else p.1
  else w

/-- The inner agent loop of one phase (server.js lines 670-687): for each
roster agent in order — after absorbing externally arrived operations —
stop if the session is no longer active, otherwise run the escalation gate
and then the agent's turn. -/
def runRoster (cfg : Config) (env : Env) (phase : Nat) (w : World) : List String → World
  | [] => w
  | agentId :: rest =>
    let w1 := applyEnv cfg env w
    if w1.session.active then
      let w2 := gate cfg env w1
      let w3 := runAgentTurn cfg w2 agentId phase
      runRoster cfg env phase w3 rest
    else w1

/-- Phase-entry bookkeeping of the outer loop (server.js lines 664-668):
record the phase index in memory, touch the session row's `updated_at`
with a clock reading, record the phase index in the database and broadcast
`phase-change`. -/
def startPhase (cfg : Config) (idx : Nat) (ph : Phase) (w : World) : World :=
  let w2 := { w with session := { w.session with phase := idx } }
  let w3 := (freshNow cfg w2).2
  let w4 := { w3 with db := { w3.db with sessionPhase := idx } }
  emit (.phaseChange idx ph.name ph.agents) w4

/-- The outer phase loop of `runDeliberation` (server.js lines 661-688):
for each phase in declared order, stop if the session is inactive,
otherwise enter the phase and run its roster. -/
def runPhases (cfg : Config) (env : Env) (w : World) : List (Nat × Phase) → World
  | [] => w
  | (idx, ph) :: rest =>
    let w1 := applyEnv cfg env w
    if w1.session.active then
      runPhases cfg env (runRoster cfg env idx (startPhase cfg idx ph w1) ph.agents) rest
    else w1

/-- The completion block of `runDeliberation` (server.js lines 690-711),
which runs synchronously after the loop (also after an early stop): clear
the active flag in memory and in the database, drop the session from the
registry, compute the export-readiness counts — the in-memory message
count, the persisted Synthesis-message count and the persisted escalation
count — and broadcast `deliberation-complete`.  The source payload carries
the availability flags `totalMsgs > 0`, `synthCount > 0` and
`synthCount > 0 || qaCount > 0` derived from exactly these three counts;
the modelled event carries the counts themselves. -/
def completeDeliberation (cfg : Config) (w : World) : World :=
  let w1 := { w with session := { w.session with active := false } }
  let w2 := (freshNow cfg w1).2
  let w3 := { w2 with db := { w2.db with sessionActive := false }, inRegistry := false }
  let synthCount := (w3.db.messages.filter (fun m => m.phase = "Synthesis")).length
  let qaCount := w3.db.escalations.length
  let totalMsgs := w3.session.messages.length
  emit (.deliberationComplete totalMsgs synthCount qaCount) w3

/-- Source `runDeliberation` (server.js lines 660-711). -/
def runDeliberation (cfg : Config) (env : Env) (w : World) : World :=
  completeDeliberation cfg (runPhases cfg env w PHASES.enum)

/-- Source `createSession` (server.js lines 334-355): the fresh world for
a new session — empty message/escalation/interjection lists in memory and
in the database, all agents idle, phase 0, active, registered. -/
def mkWorld (sid problem : String) (files : List FileRef) (now : Nat) : World :=
  { session := { sid := sid, problem := problem, files := files, phase := 0,
                 messages := [], humanMessages := [], escalations := [],
                 agentStates := fun _ => .idle, active := true, createdAt := now },
    inRegistry := true,
    db := { messages := [], escalations := [], humanMessages := [], files := files,
            sessionActive := true, sessionPhase := 0 },
    events := [], envIdx := 0, idIdx := 0, clockIdx := 0 }

/-- Count of messages in a run of an escalation answered/created trace;
used to state the escalation-status invariant: replay a list of answer
submissions against one escalation row. -/
def applyAnswers (r : DbEsc) : List (String × Nat) → DbEsc
  | [] => r
  | (a, t) :: rest => applyAnswers (answerEscRow r a t) rest

/-- Events a turn itself can broadcast. -/
def evTurn : Event → Bool
  | .agentState _ _ => true
  | .searchStarted _ _ => true
  | .searchComplete _ _ => true
  | .message _ => true
  | .escalation _ _ _ => true
  | .error _ _ => true
  | _ => false

/-- Events the external-operation handlers can broadcast. -/
def evExternal : Event → Bool
  | .escalationAnswered _ _ => true
  | .sessionStopped => true
  | .humanMessage _ _ => true
  | _ => false

/-- Events the escalation gate itself can broadcast. -/
def evWait : Event → Bool
  | .waitingForHuman _ => true
  | .escalationTimeout => true
  | _ => false

/-- Any event the inner loop can broadcast — everything except
`phase-change` and `deliberation-complete`. -/
def evInner (e : Event) : Bool :=
  evTurn e || evExternal e || evWait e

/-- Does the event announce the start of a search sub-protocol? -/
def evSearchStart : Event → Bool
  | .searchStarted _ _ => true
  | _ => false

/-- Projection selecting `phase-change` notifications. -/
def phaseProj : Event → Option (Nat × String × List String)
  | .phaseChange i n ags => some (i, n, ags)
  | _ => none

/-- Predicate: the environment stream never delivers an operation — the
canonical quiet scenario. -/
def EnvTrivial (env : Env) : Prop := ∀ n, env n = []

/-- Predicate: the Model Gateway answers every call successfully. -/
def GwOk (cfg : Config) : Prop := ∀ sp msgs, ∃ r, cfg.gw sp msgs = .ok r

/-- A quiet configuration for concrete runs: a Model Gateway that always
answers "noted", no Search Gateway, deterministic clock and id oracles. -/
def cfgW : Config :=
  { gw := fun _ _ => .ok "noted", tavily := false, search := fun _ => none,
    fmtTime := fun _ => "00:00:00", clock := fun n => 1000 + n,
    genId := fun n => "id" ++ toString n }

/-- An environment delivering no external operations. -/
def envW : Env := fun _ => []

/-- A freshly created session world for the canonical scenario. -/
def w0 : World := mkWorld "sess-1" "Should we use microservices?" [] 999

/-- An escalation that has already been answered (for exercising the
`escalation-response` handler on the already-answered case). -/
def escAnswered : Esc :=
  { id := "e1", agentId := "process-architect", question := "Budget?",
    sessionId := "sess-1", answered := true, answer := some "old", createdAt := 5 }

/-- A registered session world holding one already-answered escalation in
memory and in the database. -/
def wC1 : World :=
  { w0 with
    session := { w0.session with escalations := [escAnswered] },
    db := { w0.db with escalations :=
      [answerEscRow (insertEscRow "e1" "process-architect" "Process Architect" "🎯" "Budget?" 5)
        "old" 6] } }

/-- A configuration whose Model Gateway always fails. -/
def cfgC3 : Config := { cfgW with gw := fun _ _ => .error "boom" }

/-- A Model Gateway for the search flow: the first call (a single-message
conversation) asks for a search; the second call (the three-message
synthesis conversation) still contains a SEARCH directive. -/
def gwC4 : String → List ChatMsg → Except String String :=
  fun _ msgs =>
    if msgs.length = 1 then .ok "SEARCH: alpha query\nrest"
    else .ok "SEARCH: leftover query"

/-- Search-enabled configuration using `gwC4`. -/
def cfgC4 : Config := { cfgW with tavily := true, gw := gwC4 }

/-- A model output containing six escalation markers. -/
def sixMarkerText : String :=
  "NEED_HUMAN_INPUT: q one\nNEED_HUMAN_INPUT: q two\nNEED_HUMAN_INPUT: q three\nNEED_HUMAN_INPUT: q four\nNEED_HUMAN_INPUT: q five\nNEED_HUMAN_INPUT: q six\n"

/-- A configuration whose Model Gateway emits six escalation markers. -/
def cfgC5 : Config := { cfgW with gw := fun _ _ => .ok sixMarkerText }

/-- A pending escalation. -/
def escPending : Esc :=
  { id := "e2", agentId := "red-teamer", question := "Risk appetite?",
    sessionId := "sess-1", answered := false, answer := none, createdAt := 5 }

/-- A session world with one pending escalation. -/
def wPend : World := { w0 with session := { w0.session with escalations := [escPending] } }

/-- A session world whose active flag has been cleared. -/
def wInactive : World := { w0 with session := { w0.session with active := false } }

/-- A session world no longer present in the active-session registry. -/
def wDone : World := { w0 with inRegistry := false }

/-- The number of unanswered escalations of a session (server.js line 674). -/
def pendingCount (w : World) : Nat :=
  (w.session.escalations.filter (fun e => !e.answered)).length

/-- The poll performed by the escalation gate right after the
`waiting-for-human` notification (server.js lines 675-680). -/
def pollAfterNotify (cfg : Config) (env : Env) (w : World) : World × Nat :=
  pollLoop cfg env 151 (emit (.waitingForHuman (pendingCount w)) w) 0

theorem emit_session (e : Event) (w : World) : (emit e w).session = w.session := rfl

theorem emit_db (e : Event) (w : World) : (emit e w).db = w.db := rfl

theorem emit_inRegistry (e : Event) (w : World) : (emit e w).inRegistry = w.inRegistry := rfl

theorem emit_events (e : Event) (w : World) : (emit e w).events = w.events ++ [e] := rfl

theorem setState_events (a : String) (st : AgState) (w : World) :
    (setState a st w).events = w.events ++ [.agentState a st] := rfl

theorem setState_messages (a : String) (st : AgState) (w : World) :
    (setState a st w).session.messages = w.session.messages := rfl

theorem setState_db (a : String) (st : AgState) (w : World) :
    (setState a st w).db = w.db := rfl

theorem setState_active (a : String) (st : AgState) (w : World) :
    (setState a st w).session.active = w.session.active := rfl

theorem setState_escalations (a : String) (st : AgState) (w : World) :
    (setState a st w).session.escalations = w.session.escalations := rfl

theorem filterMap_phaseProj_nil {δ : List Event} (h : ∀ e ∈ δ, evInner e = true) :
    δ.filterMap phaseProj = [] := by
  induction δ with
  | nil => rfl
  | cons e rest ih =>
    have he : evInner e = true := h e (List.mem_cons_self e rest)
    have hr := ih (fun x hx => h x (List.mem_cons_of_mem e hx))
    cases e <;> simp_all [evInner, evTurn, evExternal, evWait, phaseProj]

theorem mintEscalations_list (cfg : Config) (a s : String) :
    ∀ (qs : List String) (i c : Nat),
      ((mintEscalations cfg a s qs i c).map Esc.question = qs) ∧
      (∀ e ∈ mintEscalations cfg a s qs i c,
        e.answered = false ∧ e.answer = none ∧ e.agentId = a ∧ e.sessionId = s) := by
  intro qs
  induction qs with
  | nil => intro i c; simp [mintEscalations]
  | cons q rest ih =>
    intro i c
    have h := ih (i + 1) (c + 1)
    refine ⟨?_, ?_⟩
    · simp [mintEscalations, h.1]
    · intro e he
      simp only [mintEscalations] at he
      rcases List.mem_cons.mp he with h1 | h2
      · subst h1; exact ⟨rfl, rfl, rfl, rfl⟩
      · exact h.2 e h2

theorem pushEscalations_world (agent : Agent) :
    ∀ (escs : List Esc) (w : World),
      (pushEscalations agent escs w).session.messages = w.session.messages ∧
      (pushEscalations agent escs w).db.messages = w.db.messages ∧
      (pushEscalations agent escs w).session.escalations = w.session.escalations ++ escs ∧
      (pushEscalations agent escs w).db.escalations = w.db.escalations ++
        escs.map (fun e => insertEscRow e.id e.agentId agent.name agent.emoji e.question e.createdAt) ∧
      (pushEscalations agent escs w).events = w.events ++
        escs.map (fun e => .escalation e agent.name agent.emoji) ∧
      (pushEscalations agent escs w).session.active = w.session.active ∧
      (pushEscalations agent escs w).session.sid = w.session.sid ∧
      (pushEscalations agent escs w).inRegistry = w.inRegistry ∧
      (pushEscalations agent escs w).db.sessionActive = w.db.sessionActive ∧
      (pushEscalations agent escs w).session.agentStates = w.session.agentStates := by
  intro escs
  induction escs with
  | nil => intro w; simp [pushEscalations]
  | cons e rest ih =>
    intro w
    obtain ⟨h1, h2, h3, h4, h5, h6, h7, h8, h9, h10⟩ := ih
      (emit (.escalation e agent.name agent.emoji)
        { w with
          session := { w.session with escalations := w.session.escalations ++ [e] },
          db := { w.db with escalations := w.db.escalations ++
            [insertEscRow e.id e.agentId agent.name agent.emoji e.question e.createdAt] } })
    refine ⟨?_, ?_, ?_, ?_, ?_, ?_, ?_, ?_, ?_, ?_⟩ <;>
      simp [pushEscalations, emit] at h1 h2 h3 h4 h5 h6 h7 h8 h9 h10 ⊢ <;>
      simp [h1, h2, h3, h4, h5, h6, h7, h8, h9, h10]

theorem push_msgs (agent : Agent) (escs : List Esc) (w : World) :
    (pushEscalations agent escs w).session.messages = w.session.messages :=
  (pushEscalations_world agent escs w).1

theorem push_dbMsgs (agent : Agent) (escs : List Esc) (w : World) :
    (pushEscalations agent escs w).db.messages = w.db.messages :=
  (pushEscalations_world agent escs w).2.1

theorem push_escs (agent : Agent) (escs : List Esc) (w : World) :
    (pushEscalations agent escs w).session.escalations = w.session.escalations ++ escs :=
  (pushEscalations_world agent escs w).2.2.1

theorem push_dbEscs (agent : Agent) (escs : List Esc) (w : World) :
    (pushEscalations agent escs w).db.escalations = w.db.escalations ++
      escs.map (fun e => insertEscRow e.id e.agentId agent.name agent.emoji e.question e.createdAt) :=
  (pushEscalations_world agent escs w).2.2.2.1

theorem push_events (agent : Agent) (escs : List Esc) (w : World) :
    (pushEscalations agent escs w).events = w.events ++
      escs.map (fun e => .escalation e agent.name agent.emoji) :=
  (pushEscalations_world agent escs w).2.2.2.2.1

theorem push_active (agent : Agent) (escs : List Esc) (w : World) :
    (pushEscalations agent escs w).session.active = w.session.active :=
  (pushEscalations_world agent escs w).2.2.2.2.2.1

theorem push_sid (agent : Agent) (escs : List Esc) (w : World) :
    (pushEscalations agent escs w).session.sid = w.session.sid :=
  (pushEscalations_world agent escs w).2.2.2.2.2.2.1

theorem push_inRegistry (agent : Agent) (escs : List Esc) (w : World) :
    (pushEscalations agent escs w).inRegistry = w.inRegistry :=
  (pushEscalations_world agent escs w).2.2.2.2.2.2.2.1

theorem push_dbActive (agent : Agent) (escs : List Esc) (w : World) :
    (pushEscalations agent escs w).db.sessionActive = w.db.sessionActive :=
  (pushEscalations_world agent escs w).2.2.2.2.2.2.2.2.1

theorem push_agentStates (agent : Agent) (escs : List Esc) (w : World) :
    (pushEscalations agent escs w).session.agentStates = w.session.agentStates :=
  (pushEscalations_world agent escs w).2.2.2.2.2.2.2.2.2

theorem finishTurn_spec (cfg : Config) (agent : Agent) (aid ph r : String) (w : World) :
    (finishTurn cfg agent aid ph r w).session.messages =
      w.session.messages ++ [mkTurnMsg cfg agent aid ph r w] ∧
    (finishTurn cfg agent aid ph r w).db.messages =
      w.db.messages ++ [mkTurnMsg cfg agent aid ph r w] ∧
    (finishTurn cfg agent aid ph r w).session.escalations =
      w.session.escalations ++ turnEscs cfg aid r w ∧
    (finishTurn cfg agent aid ph r w).db.escalations = w.db.escalations ++
      (turnEscs cfg aid r w).map
        (fun e => insertEscRow e.id e.agentId agent.name agent.emoji e.question e.createdAt) ∧
    (finishTurn cfg agent aid ph r w).events = w.events ++
      [.agentState aid .speaking, .message (mkTurnMsg cfg agent aid ph r w)] ++
      (turnEscs cfg aid r w).map (fun e => .escalation e agent.name agent.emoji) ++
      [.agentState aid .idle] ∧
    (finishTurn cfg agent aid ph r w).session.active = w.session.active ∧
    (finishTurn cfg agent aid ph r w).session.sid = w.session.sid ∧
    (finishTurn cfg agent aid ph r w).inRegistry = w.inRegistry ∧
    (finishTurn cfg agent aid ph r w).db.sessionActive = w.db.sessionActive ∧
    (finishTurn cfg agent aid ph r w).session.agentStates aid = .idle := by
  refine ⟨?_, ?_, ?_, ?_, ?_, ?_, ?_, ?_, ?_, ?_⟩ <;>
    simp [finishTurn, setState, emit, freshNow, freshId, mkTurnMsg, turnEscs,
      push_msgs, push_dbMsgs, push_escs, push_dbEscs, push_events, push_active,
      push_sid, push_inRegistry, push_dbActive, push_agentStates, List.append_assoc]

theorem setState_sid (a : String) (st : AgState) (w : World) :
    (setState a st w).session.sid = w.session.sid := rfl

theorem setState_inRegistry (a : String) (st : AgState) (w : World) :
    (setState a st w).inRegistry = w.inRegistry := rfl

theorem failTurn_spec (aid : String) (agent : Agent) (reason : String) (w : World) :
    (failTurn aid agent reason w).session.messages = w.session.messages ∧
    (failTurn aid agent reason w).db.messages = w.db.messages ∧
    (failTurn aid agent reason w).session.escalations = w.session.escalations ∧
    (failTurn aid agent reason w).db.escalations = w.db.escalations ∧
    (failTurn aid agent reason w).events = w.events ++
      [.agentState aid .idle,
       .error aid (agent.name ++ " encountered an error: " ++ reason)] ∧
    (failTurn aid agent reason w).session.active = w.session.active ∧
    (failTurn aid agent reason w).session.sid = w.session.sid ∧
    (failTurn aid agent reason w).inRegistry = w.inRegistry ∧
    (failTurn aid agent reason w).db.sessionActive = w.db.sessionActive ∧
    (failTurn aid agent reason w).session.agentStates aid = .idle := by
  refine ⟨?_, ?_, ?_, ?_, ?_, ?_, ?_, ?_, ?_, ?_⟩ <;>
    simp [failTurn, setState, emit, List.append_assoc]


theorem runAgentTurn_fail (cfg : Config) (w : World) (aid : String) (ph : Nat)
    (agent : Agent) (reason : String)
    (hfind : AGENTS.find? (fun a => a.id = aid) = some agent)
    (herr : cfg.gw agent.systemPrompt (buildContext cfg.fmtTime w.session aid ph) = .error reason) :
    (runAgentTurn cfg w aid ph).session.messages = w.session.messages ∧
    (runAgentTurn cfg w aid ph).db.messages = w.db.messages ∧
    (runAgentTurn cfg w aid ph).session.escalations = w.session.escalations ∧
    (runAgentTurn cfg w aid ph).db.escalations = w.db.escalations ∧
    (runAgentTurn cfg w aid ph).events = w.events ++
      [.agentState aid .thinking, .agentState aid .idle,
       .error aid (agent.name ++ " encountered an error: " ++ reason)] ∧
    (runAgentTurn cfg w aid ph).session.active = w.session.active ∧
    (runAgentTurn cfg w aid ph).session.sid = w.session.sid ∧
    (runAgentTurn cfg w aid ph).inRegistry = w.inRegistry ∧
    (runAgentTurn cfg w aid ph).db.sessionActive = w.db.sessionActive ∧
    (runAgentTurn cfg w aid ph).session.agentStates aid = .idle := by
  have hctx : buildContext cfg.fmtTime (setState aid .thinking w).session aid ph =
      buildContext cfg.fmtTime w.session aid ph := rfl
  unfold runAgentTurn
  rw [hfind]
  simp only [hctx, herr]
  obtain ⟨f1, f2, f3, f4, f5, f6, f7, f8, f9, f10⟩ :=
    failTurn_spec aid agent reason (setState aid .thinking w)
  refine ⟨?_, ?_, ?_, ?_, ?_, ?_, ?_, ?_, ?_, ?_⟩ <;>
    simp [f1, f2, f3, f4, f5, f6, f7, f8, f9, f10,
      setState_messages, setState_db, setState_active, setState_escalations,
      setState_events, setState_sid, setState_inRegistry, List.append_assoc]

theorem runAgentTurn_ok (cfg : Config) (w : World) (aid : String) (ph : Nat)
    (agent : Agent) (r : String)
    (hfind : AGENTS.find? (fun a => a.id = aid) = some agent)
    (hok : cfg.gw agent.systemPrompt (buildContext cfg.fmtTime w.session aid ph) = .ok r)
    (hbranch : (aid = "research-scout" && cfg.tavily) = false) :
    (runAgentTurn cfg w aid ph).session.messages =
      w.session.messages ++ [mkTurnMsg cfg agent aid (phaseNameOf ph) r w] ∧
    (runAgentTurn cfg w aid ph).db.messages =
      w.db.messages ++ [mkTurnMsg cfg agent aid (phaseNameOf ph) r w] ∧
    (runAgentTurn cfg w aid ph).session.escalations =
      w.session.escalations ++ turnEscs cfg aid r w ∧
    (runAgentTurn cfg w aid ph).db.escalations = w.db.escalations ++
      (turnEscs cfg aid r w).map
        (fun e => insertEscRow e.id e.agentId agent.name agent.emoji e.question e.createdAt) ∧
    (runAgentTurn cfg w aid ph).events = w.events ++
      [.agentState aid .thinking, .agentState aid .speaking,
       .message (mkTurnMsg cfg agent aid (phaseNameOf ph) r w)] ++
      (turnEscs cfg aid r w).map (fun e => .escalation e agent.name agent.emoji) ++
      [.agentState aid .idle] ∧
    (runAgentTurn cfg w aid ph).session.active = w.session.active ∧
    (runAgentTurn cfg w aid ph).session.sid = w.session.sid ∧
    (runAgentTurn cfg w aid ph).inRegistry = w.inRegistry ∧
    (runAgentTurn cfg w aid ph).db.sessionActive = w.db.sessionActive ∧
    (runAgentTurn cfg w aid ph).session.agentStates aid = .idle := by
  have hctx : buildContext cfg.fmtTime (setState aid .thinking w).session aid ph =
      buildContext cfg.fmtTime w.session aid ph := rfl
  unfold runAgentTurn
  rw [hfind]
  simp only [hctx, hok, hbranch, Bool.false_eq_true, if_false]
  obtain ⟨f1, f2, f3, f4, f5, f6, f7, f8, f9, f10⟩ :=
    finishTurn_spec cfg agent aid (phaseNameOf ph) r (setState aid .thinking w)
  have hm : mkTurnMsg cfg agent aid (phaseNameOf ph) r (setState aid .thinking w) =
      mkTurnMsg cfg agent aid (phaseNameOf ph) r w := rfl
  have he : turnEscs cfg aid r (setState aid .thinking w) = turnEscs cfg aid r w := rfl
  rw [hm] at f1 f2 f5
  rw [he] at f3 f4 f5
  refine ⟨?_, ?_, ?_, ?_, ?_, ?_, ?_, ?_, ?_, ?_⟩ <;>
    simp [f1, f2, f3, f4, f5, f6, f7, f8, f9, f10,
      setState_messages, setState_db, setState_active, setState_escalations,
      setState_events, setState_sid, setState_inRegistry, List.append_assoc]

theorem runAgentTurn_search (cfg : Config) (w : World) (ph : Nat)
    (agent : Agent) (r1 r2 : String)
    (hfind : AGENTS.find? (fun a => a.id = "research-scout") = some agent)
    (htav : cfg.tavily = true)
    (h1 : cfg.gw agent.systemPrompt
      (buildContext cfg.fmtTime w.session "research-scout" ph) = .ok r1)
    (hqs : (extractSearchQueries r1).isEmpty = false)
    (h2 : cfg.gw agent.systemPrompt
      (synthMessages cfg (buildContext cfg.fmtTime w.session "research-scout" ph) r1) = .ok r2) :
    (runAgentTurn cfg w "research-scout" ph).session.messages =
      w.session.messages ++ [mkTurnMsg cfg agent "research-scout" (phaseNameOf ph) r2 w] ∧
    (runAgentTurn cfg w "research-scout" ph).db.messages =
      w.db.messages ++ [mkTurnMsg cfg agent "research-scout" (phaseNameOf ph) r2 w] ∧
    (runAgentTurn cfg w "research-scout" ph).events = w.events ++
      [.agentState "research-scout" .thinking,
       .agentState "research-scout" .searching,
       .searchStarted "research-scout" (extractSearchQueries r1),
       .searchComplete "research-scout" (totalSources (executeSearches cfg (extractSearchQueries r1))),
       .agentState "research-scout" .thinking,
       .agentState "research-scout" .speaking,
       .message (mkTurnMsg cfg agent "research-scout" (phaseNameOf ph) r2 w)] ++
      (turnEscs cfg "research-scout" r2 w).map (fun e => .escalation e agent.name agent.emoji) ++
      [.agentState "research-scout" .idle] ∧
    (runAgentTurn cfg w "research-scout" ph).session.active = w.session.active := by
  have hctx : buildContext cfg.fmtTime (setState "research-scout" .thinking w).session
      "research-scout" ph = buildContext cfg.fmtTime w.session "research-scout" ph := rfl
  unfold runAgentTurn
  rw [hfind]
  simp only [hctx, h1, htav, hqs, h2, Bool.and_true, Bool.false_eq_true, if_false, if_true]
  obtain ⟨f1, f2, f3, f4, f5, f6, f7, f8, f9, f10⟩ :=
    finishTurn_spec cfg agent "research-scout" (phaseNameOf ph) r2
      (setState "research-scout" .thinking
        (emit (.searchComplete "research-scout"
            (totalSources (executeSearches cfg (extractSearchQueries r1))))
          (emit (.searchStarted "research-scout" (extractSearchQueries r1))
            (setState "research-scout" .searching
              (setState "research-scout" .thinking w)))))
  have hm : mkTurnMsg cfg agent "research-scout" (phaseNameOf ph) r2
      (setState "research-scout" .thinking
        (emit (.searchComplete "research-scout"
            (totalSources (executeSearches cfg (extractSearchQueries r1))))
          (emit (.searchStarted "research-scout" (extractSearchQueries r1))
            (setState "research-scout" .searching
              (setState "research-scout" .thinking w))))) =
      mkTurnMsg cfg agent "research-scout" (phaseNameOf ph) r2 w := rfl
  have hte : turnEscs cfg "research-scout" r2
      (setState "research-scout" .thinking
        (emit (.searchComplete "research-scout"
            (totalSources (executeSearches cfg (extractSearchQueries r1))))
          (emit (.searchStarted "research-scout" (extractSearchQueries r1))
            (setState "research-scout" .searching
              (setState "research-scout" .thinking w))))) =
      turnEscs cfg "research-scout" r2 w := rfl
  rw [hm] at f1 f2 f5
  rw [hte] at f5
  refine ⟨?_, ?_, ?_, ?_⟩ <;>
    simp [f1, f2, f5, f6, setState_events, emit_events, setState_messages,
      setState_db, emit_session, emit_db, setState_active, List.append_assoc]


theorem handleHumanMessage_frame (cfg : Config) (w : World) (sid c : String) (t : Nat) :
    ∃ δ, (handleHumanMessage cfg w sid c t).events = w.events ++ δ ∧
      (∀ e ∈ δ, evExternal e = true) ∧
      (handleHumanMessage cfg w sid c t).session.messages = w.session.messages ∧
      (handleHumanMessage cfg w sid c t).db.messages = w.db.messages ∧
      (handleHumanMessage cfg w sid c t).session.active = w.session.active ∧
      (handleHumanMessage cfg w sid c t).session.sid = w.session.sid ∧
      (handleHumanMessage cfg w sid c t).inRegistry = w.inRegistry ∧
      (handleHumanMessage cfg w sid c t).db.sessionActive = w.db.sessionActive := by
  unfold handleHumanMessage
  split
  · by_cases hr : w.inRegistry = true <;>
      refine ⟨[.humanMessage (cfg.genId w.idIdx) c], ?_⟩ <;>
      simp [emit, evExternal, freshId, hr]
  · exact ⟨[], by simp⟩

theorem handleEscalationResponse_frame (w : World) (sid eid a : String) (t : Nat) :
    ∃ δ, (handleEscalationResponse w sid eid a t).events = w.events ++ δ ∧
      (∀ e ∈ δ, evExternal e = true) ∧
      (handleEscalationResponse w sid eid a t).session.messages = w.session.messages ∧
      (handleEscalationResponse w sid eid a t).db.messages = w.db.messages ∧
      (handleEscalationResponse w sid eid a t).session.active = w.session.active ∧
      (handleEscalationResponse w sid eid a t).session.sid = w.session.sid ∧
      (handleEscalationResponse w sid eid a t).inRegistry = w.inRegistry ∧
      (handleEscalationResponse w sid eid a t).db.sessionActive = w.db.sessionActive := by
  unfold handleEscalationResponse
  split
  · split
    · exact ⟨[], by simp⟩
    · exact ⟨[.escalationAnswered eid a], by simp [emit, evExternal]⟩
  · exact ⟨[], by simp⟩

theorem handleStop_frame (w : World) (sid : String) :
    ∃ δ, (handleStop w sid).events = w.events ++ δ ∧
      (∀ e ∈ δ, evExternal e = true) ∧
      (handleStop w sid).session.messages = w.session.messages ∧
      (handleStop w sid).db.messages = w.db.messages ∧
      ((handleStop w sid).session.active = true → w.session.active = true) ∧
      (handleStop w sid).session.sid = w.session.sid := by
  unfold handleStop
  split
  · exact ⟨[.sessionStopped], by simp [emit, evExternal]⟩
  · exact ⟨[], by simp⟩

theorem applyOp_frame (cfg : Config) (w : World) (op : ExtOp) :
    ∃ δ, (applyOp cfg w op).events = w.events ++ δ ∧
      (∀ e ∈ δ, evExternal e = true) ∧
      (applyOp cfg w op).session.messages = w.session.messages ∧
      (applyOp cfg w op).db.messages = w.db.messages ∧
      ((applyOp cfg w op).session.active = true → w.session.active = true) ∧
      (applyOp cfg w op).session.sid = w.session.sid := by
  cases op with
  | answerEsc sid eid a t =>
    obtain ⟨δ, h1, h2, h3, h4, h5, h6, _, _⟩ := handleEscalationResponse_frame w sid eid a t
    exact ⟨δ, h1, h2, h3, h4, fun h => by simp only [applyOp] at h; rwa [h5] at h, h6⟩
  | stop sid =>
    obtain ⟨δ, h1, h2, h3, h4, h5, h6⟩ := handleStop_frame w sid
    exact ⟨δ, h1, h2, h3, h4, h5, h6⟩
  | humanMsg sid c t =>
    obtain ⟨δ, h1, h2, h3, h4, h5, h6, _, _⟩ := handleHumanMessage_frame cfg w sid c t
    exact ⟨δ, h1, h2, h3, h4, fun h => by simp only [applyOp] at h; rwa [h5] at h, h6⟩

theorem foldl_applyOp_frame (cfg : Config) :
    ∀ (ops : List ExtOp) (w : World),
      ∃ δ, (ops.foldl (applyOp cfg) w).events = w.events ++ δ ∧
        (∀ e ∈ δ, evExternal e = true) ∧
        (ops.foldl (applyOp cfg) w).session.messages = w.session.messages ∧
        (ops.foldl (applyOp cfg) w).db.messages = w.db.messages ∧
        ((ops.foldl (applyOp cfg) w).session.active = true → w.session.active = true) ∧
        (ops.foldl (applyOp cfg) w).session.sid = w.session.sid := by
  intro ops
  induction ops with
  | nil => intro w; exact ⟨[], by simp⟩
  | cons op rest ih =>
    intro w
    obtain ⟨δ1, a1, a2, a3, a4, a5, a6⟩ := applyOp_frame cfg w op
    obtain ⟨δ2, b1, b2, b3, b4, b5, b6⟩ := ih (applyOp cfg w op)
    refine ⟨δ1 ++ δ2, ?_, ?_, ?_, ?_, ?_, ?_⟩
    · simp [List.foldl_cons, b1, a1, List.append_assoc]
    · intro e he
      rcases List.mem_append.mp he with h | h
      · exact a2 e h
      · exact b2 e h
    · simp [List.foldl_cons, b3, a3]
    · simp [List.foldl_cons, b4, a4]
    · intro h; exact a5 (b5 (by simpa [List.foldl_cons] using h))
    · simp [List.foldl_cons, b6, a6]

theorem applyEnv_frame (cfg : Config) (env : Env) (w : World) :
    ∃ δ, (applyEnv cfg env w).events = w.events ++ δ ∧
      (∀ e ∈ δ, evExternal e = true) ∧
      (applyEnv cfg env w).session.messages = w.session.messages ∧
      (applyEnv cfg env w).db.messages = w.db.messages ∧
      ((applyEnv cfg env w).session.active = true → w.session.active = true) ∧
      (applyEnv cfg env w).session.sid = w.session.sid := by
  unfold applyEnv
  obtain ⟨δ, h1, h2, h3, h4, h5, h6⟩ :=
    foldl_applyOp_frame cfg (env w.envIdx) { w with envIdx := w.envIdx + 1 }
  exact ⟨δ, by simpa using h1, h2, by simpa using h3, by simpa using h4,
    by simpa using h5, by simpa using h6⟩

theorem pollLoop_frame (cfg : Config) (env : Env) :
    ∀ (fuel : Nat) (w : World) (waited : Nat),
      ∃ δ, (pollLoop cfg env fuel w waited).1.events = w.events ++ δ ∧
        (∀ e ∈ δ, evExternal e = true) ∧
        (pollLoop cfg env fuel w waited).1.session.messages = w.session.messages ∧
        (pollLoop cfg env fuel w waited).1.db.messages = w.db.messages ∧
        ((pollLoop cfg env fuel w waited).1.session.active = true → w.session.active = true) ∧
        (pollLoop cfg env fuel w waited).1.session.sid = w.session.sid := by
  intro fuel
  induction fuel with
  | zero => intro w waited; exact ⟨[], by simp [pollLoop]⟩
  | succ fuel ih =>
    intro w waited
    by_cases hc : ((w.session.escalations.any (fun e => !e.answered)) && (decide (waited < 300000)) && w.session.active) = true
    · have hstep : pollLoop cfg env (fuel + 1) w waited =
          pollLoop cfg env fuel (applyEnv cfg env w) (waited + 2000) := by
        simp only [pollLoop]
        rw [if_pos hc]
      rw [hstep]
      obtain ⟨δ1, a1, a2, a3, a4, a5, a6⟩ := applyEnv_frame cfg env w
      obtain ⟨δ2, b1, b2, b3, b4, b5, b6⟩ := ih (applyEnv cfg env w) (waited + 2000)
      refine ⟨δ1 ++ δ2, ?_, ?_, ?_, ?_, ?_, ?_⟩
      · simp [b1, a1, List.append_assoc]
      · intro e he
        rcases List.mem_append.mp he with h | h
        · exact a2 e h
        · exact b2 e h
      · simp [b3, a3]
      · simp [b4, a4]
      · intro h; exact a5 (b5 h)
      · simp [b6, a6]
    · have hstep : pollLoop cfg env (fuel + 1) w waited = (w, waited) := by
        simp only [pollLoop]
        rw [if_neg hc]
      rw [hstep]
      exact ⟨[], by simp⟩

theorem gate_pos_step (cfg : Config) (env : Env) (w : World)
    (hp : 0 < (w.session.escalations.filter (fun e => !e.answered)).length) :
    gate cfg env w =
      if 300000 ≤ (pollLoop cfg env 151
          (emit (.waitingForHuman (w.session.escalations.filter (fun e => !e.answered)).length) w)
          0).2
      then emit .escalationTimeout (pollLoop cfg env 151
          (emit (.waitingForHuman (w.session.escalations.filter (fun e => !e.answered)).length) w)
          0).1
      else (pollLoop cfg env 151
          (emit (.waitingForHuman (w.session.escalations.filter (fun e => !e.answered)).length) w)
          0).1 := by
  simp only [gate]
  rw [if_pos hp]

theorem gate_neg_step (cfg : Config) (env : Env) (w : World)
    (hp : ¬ 0 < (w.session.escalations.filter (fun e => !e.answered)).length) :
    gate cfg env w = w := by
  simp only [gate]
  rw [if_neg hp]

theorem gate_frame (cfg : Config) (env : Env) (w : World) :
    ∃ δ, (gate cfg env w).events = w.events ++ δ ∧
      (∀ e ∈ δ, (evExternal e || evWait e) = true) ∧
      (gate cfg env w).session.messages = w.session.messages ∧
      (gate cfg env w).db.messages = w.db.messages ∧
      ((gate cfg env w).session.active = true → w.session.active = true) ∧
      (gate cfg env w).session.sid = w.session.sid := by
  by_cases hp : 0 < (w.session.escalations.filter (fun e => !e.answered)).length
  · rw [gate_pos_step cfg env w hp]
    obtain ⟨δ, h1, h2, h3, h4, h5, h6⟩ := pollLoop_frame cfg env 151
      (emit (.waitingForHuman (w.session.escalations.filter (fun e => !e.answered)).length) w) 0
    split
    · refine ⟨.waitingForHuman (w.session.escalations.filter (fun e => !e.answered)).length ::
        (δ ++ [.escalationTimeout]), ?_, ?_, ?_, ?_, ?_, ?_⟩
      · rw [emit_events, h1, emit_events]
        simp [List.append_assoc]
      · intro e he
        rcases List.mem_cons.mp he with h | h
        · subst h; simp [evWait]
        · rcases List.mem_append.mp h with h | h
          · simp [h2 e h]
          · simp [List.mem_singleton.mp h, evWait]
      · simpa [emit] using h3
      · simpa [emit] using h4
      · intro hh; exact h5 (by simpa [emit] using hh)
      · simpa [emit] using h6
    · refine ⟨.waitingForHuman (w.session.escalations.filter (fun e => !e.answered)).length :: δ,
        ?_, ?_, ?_, ?_, ?_, ?_⟩
      · rw [h1, emit_events]
        simp [List.append_assoc]
      · intro e he
        rcases List.mem_cons.mp he with h | h
        · subst h; simp [evWait]
        · simp [h2 e h]
      · simpa [emit] using h3
      · simpa [emit] using h4
      · intro hh; exact h5 (by simpa [emit] using hh)
      · simpa [emit] using h6
  · rw [gate_neg_step cfg env w hp]
    exact ⟨[], by simp⟩

theorem pollLoop_exit (cfg : Config) (env : Env) :
    ∀ (fuel : Nat) (w : World) (waited : Nat), 300000 ≤ waited + 2000 * fuel →
      ((pollLoop cfg env fuel w waited).1.session.escalations.any (fun e => !e.answered)) = false ∨
      300000 ≤ (pollLoop cfg env fuel w waited).2 ∨
      (pollLoop cfg env fuel w waited).1.session.active = false := by
  intro fuel
  induction fuel with
  | zero =>
    intro w waited h
    right; left
    simpa [pollLoop] using h
  | succ fuel ih =>
    intro w waited h
    by_cases hc : ((w.session.escalations.any (fun e => !e.answered)) && (decide (waited < 300000)) && w.session.active) = true
    · have hstep : pollLoop cfg env (fuel + 1) w waited =
          pollLoop cfg env fuel (applyEnv cfg env w) (waited + 2000) := by
        simp only [pollLoop]
        rw [if_pos hc]
      rw [hstep]
      exact ih (applyEnv cfg env w) (waited + 2000) (by omega)
    · have hstep : pollLoop cfg env (fuel + 1) w waited = (w, waited) := by
        simp only [pollLoop]
        rw [if_neg hc]
      rw [hstep]
      simp only [Bool.and_eq_true, decide_eq_true_eq, not_and] at hc
      by_cases h1 : (w.session.escalations.any (fun e => !e.answered)) = true
      · by_cases h2 : waited < 300000
        · right; right
          have := hc ⟨h1, h2⟩
          simpa using this
        · right; left
          simpa using Nat.le_of_not_lt h2
      · left
        simpa using h1

theorem pollLoop_waited (cfg : Config) (env : Env) :
    ∀ (fuel : Nat) (w : World) (waited : Nat), 2000 ∣ waited → waited ≤ 300000 →
      2000 ∣ (pollLoop cfg env fuel w waited).2 ∧ (pollLoop cfg env fuel w waited).2 ≤ 300000 := by
  intro fuel
  induction fuel with
  | zero =>
    intro w waited h1 h2
    exact ⟨by simpa [pollLoop] using h1, by simpa [pollLoop] using h2⟩
  | succ fuel ih =>
    intro w waited h1 h2
    by_cases hc : ((w.session.escalations.any (fun e => !e.answered)) && (decide (waited < 300000)) && w.session.active) = true
    · have hstep : pollLoop cfg env (fuel + 1) w waited =
          pollLoop cfg env fuel (applyEnv cfg env w) (waited + 2000) := by
        simp only [pollLoop]
        rw [if_pos hc]
      rw [hstep]
      have hlt : waited < 300000 := by
        simp only [Bool.and_eq_true, decide_eq_true_eq] at hc
        exact hc.1.2
      obtain ⟨k, hk⟩ := h1
      refine ih (applyEnv cfg env w) (waited + 2000) ⟨k + 1, by omega⟩ (by omega)
    · have hstep : pollLoop cfg env (fuel + 1) w waited = (w, waited) := by
        simp only [pollLoop]
        rw [if_neg hc]
      rw [hstep]
      exact ⟨h1, h2⟩

theorem evTurn_escMap (agent : Agent) (escs : List Esc) :
    ∀ e ∈ escs.map (fun e => Event.escalation e agent.name agent.emoji), evTurn e = true := by
  intro e he
  obtain ⟨esc, _, h⟩ := List.mem_map.mp he
  subst h
  rfl

theorem runAgentTurn_frame (cfg : Config) (w : World) (aid : String) (ph : Nat) :
    ∃ δ ms, (runAgentTurn cfg w aid ph).events = w.events ++ δ ∧
      (∀ e ∈ δ, evTurn e = true) ∧
      (runAgentTurn cfg w aid ph).session.messages = w.session.messages ++ ms ∧
      (runAgentTurn cfg w aid ph).db.messages = w.db.messages ++ ms ∧
      (runAgentTurn cfg w aid ph).session.active = w.session.active ∧
      (runAgentTurn cfg w aid ph).session.sid = w.session.sid := by
  unfold runAgentTurn
  rcases hf : AGENTS.find? (fun a => a.id = aid) with _ | agent
  · refine ⟨[], [], ?_, ?_, ?_, ?_, ?_, ?_⟩ <;> simp [hf]
  · rcases hg : cfg.gw agent.systemPrompt
        (buildContext cfg.fmtTime (setState aid AgState.thinking w).session aid ph) with e | r1
    · obtain ⟨f1, f2, f3, f4, f5, f6, f7, f8, f9, f10⟩ :=
        failTurn_spec aid agent e (setState aid .thinking w)
      refine ⟨[.agentState aid .thinking, .agentState aid .idle,
        .error aid (agent.name ++ " encountered an error: " ++ e)], [], ?_, ?_, ?_, ?_, ?_, ?_⟩
      · simp [hf, hg, f5, setState_events, List.append_assoc]
      · intro ev hev
        simp only [List.mem_cons, List.not_mem_nil, or_false] at hev
        rcases hev with h | h | h <;> simp [h, evTurn]
      · simp [hf, hg, f1, setState_messages]
      · simp [hf, hg, f2, setState_db]
      · simp [hf, hg, f6, setState_active]
      · simp [hf, hg, f7, setState_sid]
    · by_cases hb : (aid = "research-scout" && cfg.tavily) = true
      · by_cases hemp : (extractSearchQueries r1).isEmpty = true
        · obtain ⟨f1, f2, f3, f4, f5, f6, f7, f8, f9, f10⟩ :=
            finishTurn_spec cfg agent aid (phaseNameOf ph) r1 (setState aid .thinking w)
          have hm : mkTurnMsg cfg agent aid (phaseNameOf ph) r1 (setState aid .thinking w) =
              mkTurnMsg cfg agent aid (phaseNameOf ph) r1 w := rfl
          have hes : turnEscs cfg aid r1 (setState aid .thinking w) = turnEscs cfg aid r1 w := rfl
          rw [hm] at f1 f2 f5
          rw [hes] at f5
          refine ⟨[.agentState aid .thinking, .agentState aid .speaking,
              .message (mkTurnMsg cfg agent aid (phaseNameOf ph) r1 w)] ++
              (turnEscs cfg aid r1 w).map (fun e => .escalation e agent.name agent.emoji) ++
              [.agentState aid .idle],
            [mkTurnMsg cfg agent aid (phaseNameOf ph) r1 w], ?_, ?_, ?_, ?_, ?_, ?_⟩
          · simp [hf, hg, hb, hemp, f5, setState_events, List.append_assoc]
          · intro ev hev
            rcases List.mem_append.mp hev with h | h
            · rcases List.mem_append.mp h with h | h
              · simp only [List.mem_cons, List.not_mem_nil, or_false] at h
                rcases h with h | h | h <;> simp [h, evTurn]
              · exact evTurn_escMap agent _ ev h
            · simp only [List.mem_singleton] at h
              simp [h, evTurn]
          · simp [hf, hg, hb, hemp, f1, setState_messages]
          · simp [hf, hg, hb, hemp, f2, setState_db]
          · simp [hf, hg, hb, hemp, f6, setState_active]
          · simp [hf, hg, hb, hemp, f7, setState_sid]
        · rcases hg2 : cfg.gw agent.systemPrompt
              (synthMessages cfg (buildContext cfg.fmtTime
                (setState aid AgState.thinking w).session aid ph) r1) with e2 | r2
          · obtain ⟨f1, f2, f3, f4, f5, f6, f7, f8, f9, f10⟩ :=
              failTurn_spec aid agent e2
                (setState aid .thinking
                  (emit (.searchComplete aid (totalSources (executeSearches cfg (extractSearchQueries r1))))
                    (emit (.searchStarted aid (extractSearchQueries r1))
                      (setState aid .searching (setState aid .thinking w)))))
            refine ⟨[.agentState aid .thinking, .agentState aid .searching,
                .searchStarted aid (extractSearchQueries r1),
                .searchComplete aid (totalSources (executeSearches cfg (extractSearchQueries r1))),
                .agentState aid .thinking, .agentState aid .idle,
                .error aid (agent.name ++ " encountered an error: " ++ e2)],
              [], ?_, ?_, ?_, ?_, ?_, ?_⟩
            · simp [hf, hg, hb, hemp, hg2, f5, setState_events, emit_events, List.append_assoc]
            · intro ev hev
              simp only [List.mem_cons, List.not_mem_nil, or_false] at hev
              rcases hev with h | h | h | h | h | h | h <;> simp [h, evTurn]
            · simp [hf, hg, hb, hemp, hg2, f1, setState_messages, emit_session]
            · simp [hf, hg, hb, hemp, hg2, f2, setState_db, emit_db]
            · simp [hf, hg, hb, hemp, hg2, f6, setState_active, emit_session]
            · simp [hf, hg, hb, hemp, hg2, f7, setState_sid, emit_session]
          · obtain ⟨f1, f2, f3, f4, f5, f6, f7, f8, f9, f10⟩ :=
              finishTurn_spec cfg agent aid (phaseNameOf ph) r2
                (setState aid .thinking
                  (emit (.searchComplete aid (totalSources (executeSearches cfg (extractSearchQueries r1))))
                    (emit (.searchStarted aid (extractSearchQueries r1))
                      (setState aid .searching (setState aid .thinking w)))))
            have hm : mkTurnMsg cfg agent aid (phaseNameOf ph) r2
                (setState aid .thinking
                  (emit (.searchComplete aid (totalSources (executeSearches cfg (extractSearchQueries r1))))
                    (emit (.searchStarted aid (extractSearchQueries r1))
                      (setState aid .searching (setState aid .thinking w))))) =
                mkTurnMsg cfg agent aid (phaseNameOf ph) r2 w := rfl
            have hes : turnEscs cfg aid r2
                (setState aid .thinking
                  (emit (.searchComplete aid (totalSources (executeSearches cfg (extractSearchQueries r1))))
                    (emit (.searchStarted aid (extractSearchQueries r1))
                      (setState aid .searching (setState aid .thinking w))))) =
                turnEscs cfg aid r2 w := rfl
            rw [hm] at f1 f2 f5
            rw [hes] at f5
            refine ⟨[.agentState aid .thinking, .agentState aid .searching,
                .searchStarted aid (extractSearchQueries r1),
                .searchComplete aid (totalSources (executeSearches cfg (extractSearchQueries r1))),
                .agentState aid .thinking, .agentState aid .speaking,
                .message (mkTurnMsg cfg agent aid (phaseNameOf ph) r2 w)] ++
                (turnEscs cfg aid r2 w).map (fun e => .escalation e agent.name agent.emoji) ++
                [.agentState aid .idle],
              [mkTurnMsg cfg agent aid (phaseNameOf ph) r2 w], ?_, ?_, ?_, ?_, ?_, ?_⟩
            · simp [hf, hg, hb, hemp, hg2, f5, setState_events, emit_events, List.append_assoc]
            · intro ev hev
              rcases List.mem_append.mp hev with h | h
              · rcases List.mem_append.mp h with h | h
                · simp only [List.mem_cons, List.not_mem_nil, or_false] at h
                  rcases h with h | h | h | h | h | h | h <;> simp [h, evTurn]
                · exact evTurn_escMap agent _ ev h
              · simp only [List.mem_singleton] at h
                simp [h, evTurn]
            · simp [hf, hg, hb, hemp, hg2, f1, setState_messages, emit_session]
            · simp [hf, hg, hb, hemp, hg2, f2, setState_db, emit_db]
            · simp [hf, hg, hb, hemp, hg2, f6, setState_active, emit_session]
            · simp [hf, hg, hb, hemp, hg2, f7, setState_sid, emit_session]
      · obtain ⟨f1, f2, f3, f4, f5, f6, f7, f8, f9, f10⟩ :=
          finishTurn_spec cfg agent aid (phaseNameOf ph) r1 (setState aid .thinking w)
        have hm : mkTurnMsg cfg agent aid (phaseNameOf ph) r1 (setState aid .thinking w) =
            mkTurnMsg cfg agent aid (phaseNameOf ph) r1 w := rfl
        have hes : turnEscs cfg aid r1 (setState aid .thinking w) = turnEscs cfg aid r1 w := rfl
        rw [hm] at f1 f2 f5
        rw [hes] at f5
        refine ⟨[.agentState aid .thinking, .agentState aid .speaking,
            .message (mkTurnMsg cfg agent aid (phaseNameOf ph) r1 w)] ++
            (turnEscs cfg aid r1 w).map (fun e => .escalation e agent.name agent.emoji) ++
            [.agentState aid .idle],
          [mkTurnMsg cfg agent aid (phaseNameOf ph) r1 w], ?_, ?_, ?_, ?_, ?_, ?_⟩
        · simp [hf, hg, hb, f5, setState_events, List.append_assoc]
        · intro ev hev
          rcases List.mem_append.mp hev with h | h
          · rcases List.mem_append.mp h with h | h
            · simp only [List.mem_cons, List.not_mem_nil, or_false] at h
              rcases h with h | h | h <;> simp [h, evTurn]
            · exact evTurn_escMap agent _ ev h
          · simp only [List.mem_singleton] at h
            simp [h, evTurn]
        · simp [hf, hg, hb, f1, setState_messages]
        · simp [hf, hg, hb, f2, setState_db]
        · simp [hf, hg, hb, f6, setState_active]
        · simp [hf, hg, hb, f7, setState_sid]

theorem runRoster_frame (cfg : Config) (env : Env) (ph : Nat) :
    ∀ (roster : List String) (w : World),
      ∃ δ ms, (runRoster cfg env ph w roster).events = w.events ++ δ ∧
        (∀ e ∈ δ, evInner e = true) ∧
        (runRoster cfg env ph w roster).session.messages = w.session.messages ++ ms ∧
        (runRoster cfg env ph w roster).db.messages = w.db.messages ++ ms ∧
        ((runRoster cfg env ph w roster).session.active = true → w.session.active = true) ∧
        (runRoster cfg env ph w roster).session.sid = w.session.sid := by
  intro roster
  induction roster with
  | nil => intro w; exact ⟨[], [], by simp [runRoster], by simp [runRoster],
      by simp [runRoster], by simp [runRoster], by simp [runRoster], by simp [runRoster]⟩
  | cons a rest ih =>
    intro w
    obtain ⟨δ1, e1, t1, m1, d1, ac1, s1⟩ := applyEnv_frame cfg env w
    by_cases hact : (applyEnv cfg env w).session.active = true
    · have hstep : runRoster cfg env ph w (a :: rest) =
          runRoster cfg env ph
            (runAgentTurn cfg (gate cfg env (applyEnv cfg env w)) a ph) rest := by
        simp only [runRoster]
        rw [if_pos hact]
      obtain ⟨δ2, e2, t2, m2, d2, ac2, s2⟩ := gate_frame cfg env (applyEnv cfg env w)
      obtain ⟨δ3, ms3, e3, t3, m3, d3, ac3, s3⟩ :=
        runAgentTurn_frame cfg (gate cfg env (applyEnv cfg env w)) a ph
      obtain ⟨δ4, ms4, e4, t4, m4, d4, ac4, s4⟩ :=
        ih (runAgentTurn cfg (gate cfg env (applyEnv cfg env w)) a ph)
      refine ⟨δ1 ++ δ2 ++ δ3 ++ δ4, ms3 ++ ms4, ?_, ?_, ?_, ?_, ?_, ?_⟩
      · rw [hstep, e4, e3, e2, e1]
        simp [List.append_assoc]
      · intro ev hev
        rcases List.mem_append.mp hev with h | h
        · rcases List.mem_append.mp h with h | h
          · rcases List.mem_append.mp h with h | h
            · simp [evInner, t1 ev h]
            · have h2 := t2 ev h
              simp only [Bool.or_eq_true] at h2
              rcases h2 with h' | h' <;> simp [evInner, h']
          · simp [evInner, t3 ev h]
        · have := t4 ev h
          exact this
      · rw [hstep, m4, m3, m2, m1]
        simp [List.append_assoc]
      · rw [hstep, d4, d3, d2, d1]
        simp [List.append_assoc]
      · intro h
        rw [hstep] at h
        exact ac1 (ac2 (by rw [← ac3]; exact ac4 h))
      · rw [hstep, s4, s3, s2, s1]
    · have hstep : runRoster cfg env ph w (a :: rest) = applyEnv cfg env w := by
        simp only [runRoster]
        rw [if_neg hact]
      refine ⟨δ1, [], ?_, ?_, ?_, ?_, ?_, ?_⟩
      · rw [hstep, e1]
      · intro ev hev; simp [evInner, t1 ev hev]
      · rw [hstep, m1]; simp
      · rw [hstep, d1]; simp
      · intro h; rw [hstep] at h; exact ac1 h
      · rw [hstep, s1]


theorem evExternal_evInner {e : Event} (h : evExternal e = true) : evInner e = true := by
  simp [evInner, h]

theorem startPhase_spec (cfg : Config) (idx : Nat) (ph : Phase) (w : World) :
    (startPhase cfg idx ph w).events = w.events ++ [.phaseChange idx ph.name ph.agents] ∧
    (startPhase cfg idx ph w).session.messages = w.session.messages ∧
    (startPhase cfg idx ph w).db.messages = w.db.messages ∧
    (startPhase cfg idx ph w).session.active = w.session.active ∧
    (startPhase cfg idx ph w).session.sid = w.session.sid ∧
    (startPhase cfg idx ph w).session.escalations = w.session.escalations := by
  refine ⟨?_, ?_, ?_, ?_, ?_, ?_⟩ <;> simp [startPhase, emit, freshNow]

theorem runPhases_frame (cfg : Config) (env : Env) :
    ∀ (L : List (Nat × Phase)) (w : World),
      ∃ j δ ms, j ≤ L.length ∧
        (runPhases cfg env w L).events = w.events ++ δ ∧
        δ.filterMap phaseProj = (L.take j).map (fun p => (p.1, p.2.name, p.2.agents)) ∧
        (runPhases cfg env w L).session.messages = w.session.messages ++ ms ∧
        (runPhases cfg env w L).db.messages = w.db.messages ++ ms ∧
        ((runPhases cfg env w L).session.active = true → w.session.active = true) ∧
        (runPhases cfg env w L).session.sid = w.session.sid := by
  intro L
  induction L with
  | nil =>
    intro w
    exact ⟨0, [], [], by simp [runPhases], by simp [runPhases], by simp [runPhases],
      by simp [runPhases], by simp [runPhases], by simp [runPhases], by simp [runPhases]⟩
  | cons p rest ih =>
    obtain ⟨idx, ph⟩ := p
    intro w
    obtain ⟨δ1, e1, t1, m1, d1, ac1, s1⟩ := applyEnv_frame cfg env w
    by_cases hact : (applyEnv cfg env w).session.active = true
    · have hstep : runPhases cfg env w ((idx, ph) :: rest) =
          runPhases cfg env
            (runRoster cfg env idx (startPhase cfg idx ph (applyEnv cfg env w)) ph.agents)
            rest := by
        simp only [runPhases]
        rw [if_pos hact]
      obtain ⟨p1, p2, p3, p4, p5, p6⟩ := startPhase_spec cfg idx ph (applyEnv cfg env w)
      obtain ⟨δ3, ms3, e3, t3, m3, d3, ac3, s3⟩ :=
        runRoster_frame cfg env idx ph.agents (startPhase cfg idx ph (applyEnv cfg env w))
      obtain ⟨j4, δ4, ms4, hj4, e4, f4, m4, d4, ac4, s4⟩ :=
        ih (runRoster cfg env idx (startPhase cfg idx ph (applyEnv cfg env w)) ph.agents)
      refine ⟨j4 + 1, δ1 ++ [.phaseChange idx ph.name ph.agents] ++ δ3 ++ δ4, ms3 ++ ms4,
        ?_, ?_, ?_, ?_, ?_, ?_, ?_⟩
      · simpa using Nat.succ_le_succ hj4
      · rw [hstep, e4, e3, p1, e1]
        simp [List.append_assoc]
      · have h1 : δ1.filterMap phaseProj = [] :=
          filterMap_phaseProj_nil (fun e he => evExternal_evInner (t1 e he))
        have h3 : δ3.filterMap phaseProj = [] := filterMap_phaseProj_nil t3
        simp [List.filterMap_append, h1, h3, f4, phaseProj, List.take_succ_cons]
      · rw [hstep, m4, m3, p2, m1]
        simp [List.append_assoc]
      · rw [hstep, d4, d3, p3, d1]
        simp [List.append_assoc]
      · intro h
        rw [hstep] at h
        refine ac1 ?_
        have := ac4 h
        rw [← p4]
        exact ac3 this
      · rw [hstep, s4, s3, p5, s1]
    · have hstep : runPhases cfg env w ((idx, ph) :: rest) = applyEnv cfg env w := by
        simp only [runPhases]
        rw [if_neg hact]
      refine ⟨0, δ1, [], by simp, ?_, ?_, ?_, ?_, ?_, ?_⟩
      · rw [hstep, e1]
      · exact filterMap_phaseProj_nil (fun e he => evExternal_evInner (t1 e he))
      · rw [hstep, m1]; simp
      · rw [hstep, d1]; simp
      · intro h; rw [hstep] at h; exact ac1 h
      · rw [hstep, s1]

theorem completeDeliberation_spec (cfg : Config) (w : World) :
    (completeDeliberation cfg w).events = w.events ++
      [.deliberationComplete w.session.messages.length
        ((w.db.messages.filter (fun m => m.phase = "Synthesis")).length)
        w.db.escalations.length] ∧
    (completeDeliberation cfg w).session.messages = w.session.messages ∧
    (completeDeliberation cfg w).db.messages = w.db.messages ∧
    (completeDeliberation cfg w).session.active = false ∧
    (completeDeliberation cfg w).db.sessionActive = false ∧
    (completeDeliberation cfg w).inRegistry = false ∧
    (completeDeliberation cfg w).db.escalations = w.db.escalations := by
  refine ⟨?_, ?_, ?_, ?_, ?_, ?_, ?_⟩ <;> simp [completeDeliberation, emit, freshNow]


theorem applyEnv_trivial (cfg : Config) (env : Env) (henv : EnvTrivial env) (w : World) :
    applyEnv cfg env w = { w with envIdx := w.envIdx + 1 } := by
  unfold applyEnv
  rw [henv]
  rfl

theorem pollLoop_trivial (cfg : Config) (env : Env) (henv : EnvTrivial env) :
    ∀ (fuel : Nat) (w : World) (waited : Nat),
      ∃ k, (pollLoop cfg env fuel w waited).1 = { w with envIdx := w.envIdx + k } := by
  intro fuel
  induction fuel with
  | zero => intro w waited; exact ⟨0, rfl⟩
  | succ fuel ih =>
    intro w waited
    by_cases hc : ((w.session.escalations.any (fun e => !e.answered)) && (decide (waited < 300000)) && w.session.active) = true
    · have hstep : pollLoop cfg env (fuel + 1) w waited =
          pollLoop cfg env fuel (applyEnv cfg env w) (waited + 2000) := by
        simp only [pollLoop]
        rw [if_pos hc]
      rw [hstep, applyEnv_trivial cfg env henv w]
      obtain ⟨k, hk⟩ := ih { w with envIdx := w.envIdx + 1 } (waited + 2000)
      refine ⟨k + 1, ?_⟩
      rw [hk]
      have : w.envIdx + 1 + k = w.envIdx + (k + 1) := by omega
      simp [this]
    · have hstep : pollLoop cfg env (fuel + 1) w waited = (w, waited) := by
        simp only [pollLoop]
        rw [if_neg hc]
      rw [hstep]
      exact ⟨0, rfl⟩

theorem gate_trivial (cfg : Config) (env : Env) (henv : EnvTrivial env) (w : World) :
    ∃ δ, (gate cfg env w).session = w.session ∧
      (gate cfg env w).db = w.db ∧
      (gate cfg env w).inRegistry = w.inRegistry ∧
      (gate cfg env w).events = w.events ++ δ ∧
      (∀ e ∈ δ, evWait e = true) := by
  by_cases hp : 0 < (w.session.escalations.filter (fun e => !e.answered)).length
  · rw [gate_pos_step cfg env w hp]
    obtain ⟨k, hk⟩ := pollLoop_trivial cfg env henv 151
      (emit (.waitingForHuman (w.session.escalations.filter (fun e => !e.answered)).length) w) 0
    split
    · refine ⟨[.waitingForHuman (w.session.escalations.filter (fun e => !e.answered)).length,
        .escalationTimeout], ?_, ?_, ?_, ?_, ?_⟩
      · rw [emit_session, hk]; simp [emit_session]
      · rw [emit_db, hk]; simp [emit_db]
      · rw [emit_inRegistry, hk]; simp [emit_inRegistry]
      · rw [emit_events, hk]
        simp [emit_events, List.append_assoc]
      · intro e he
        simp only [List.mem_cons, List.not_mem_nil, or_false] at he
        rcases he with h | h <;> simp [h, evWait]
    · refine ⟨[.waitingForHuman (w.session.escalations.filter (fun e => !e.answered)).length],
        ?_, ?_, ?_, ?_, ?_⟩
      · rw [hk]; simp [emit_session]
      · rw [hk]; simp [emit_db]
      · rw [hk]; simp [emit_inRegistry]
      · rw [hk]; simp [emit_events]
      · intro e he
        simp only [List.mem_singleton] at he
        simp [he, evWait]
  · rw [gate_neg_step cfg env w hp]
    exact ⟨[], rfl, rfl, rfl, by simp, by simp⟩

theorem runAgentTurn_start (cfg : Config) (w : World) (aid : String) (ph : Nat)
    (agent : Agent) (hfind : AGENTS.find? (fun a => a.id = aid) = some agent) :
    ∃ δ, (runAgentTurn cfg w aid ph).events = w.events ++ .agentState aid .thinking :: δ := by
  obtain ⟨δ, ms, he, ht, _, _, _, _⟩ := runAgentTurn_frame cfg w aid ph
  unfold runAgentTurn at he ⊢
  rw [hfind] at he ⊢
  rcases hg : cfg.gw agent.systemPrompt
      (buildContext cfg.fmtTime (setState aid AgState.thinking w).session aid ph) with e | r1
  · obtain ⟨f1, f2, f3, f4, f5, f6, f7, f8, f9, f10⟩ :=
      failTurn_spec aid agent e (setState aid .thinking w)
    refine ⟨[.agentState aid .idle, .error aid (agent.name ++ " encountered an error: " ++ e)], ?_⟩
    simp [hg, f5, setState_events, List.append_assoc]
  · by_cases hb : (aid = "research-scout" && cfg.tavily) = true
    · by_cases hemp : (extractSearchQueries r1).isEmpty = true
      · obtain ⟨f1, f2, f3, f4, f5, f6, f7, f8, f9, f10⟩ :=
          finishTurn_spec cfg agent aid (phaseNameOf ph) r1 (setState aid .thinking w)
        refine ⟨[.agentState aid .speaking,
            .message (mkTurnMsg cfg agent aid (phaseNameOf ph) r1 (setState aid .thinking w))] ++
            (turnEscs cfg aid r1 (setState aid .thinking w)).map
              (fun e => .escalation e agent.name agent.emoji) ++ [.agentState aid .idle], ?_⟩
        simp [hg, hb, hemp, f5, setState_events, List.append_assoc]
      · rcases hg2 : cfg.gw agent.systemPrompt
            (synthMessages cfg (buildContext cfg.fmtTime
              (setState aid AgState.thinking w).session aid ph) r1) with e2 | r2
        · obtain ⟨f1, f2, f3, f4, f5, f6, f7, f8, f9, f10⟩ :=
            failTurn_spec aid agent e2
              (setState aid .thinking
                (emit (.searchComplete aid (totalSources (executeSearches cfg (extractSearchQueries r1))))
                  (emit (.searchStarted aid (extractSearchQueries r1))
                    (setState aid .searching (setState aid .thinking w)))))
          refine ⟨[.agentState aid .searching,
              .searchStarted aid (extractSearchQueries r1),
              .searchComplete aid (totalSources (executeSearches cfg (extractSearchQueries r1))),
              .agentState aid .thinking, .agentState aid .idle,
              .error aid (agent.name ++ " encountered an error: " ++ e2)], ?_⟩
          simp [hg, hb, hemp, hg2, f5, setState_events, emit_events, List.append_assoc]
        · obtain ⟨f1, f2, f3, f4, f5, f6, f7, f8, f9, f10⟩ :=
            finishTurn_spec cfg agent aid (phaseNameOf ph) r2
              (setState aid .thinking
                (emit (.searchComplete aid (totalSources (executeSearches cfg (extractSearchQueries r1))))
                  (emit (.searchStarted aid (extractSearchQueries r1))
                    (setState aid .searching (setState aid .thinking w)))))
          refine ⟨[.agentState aid .searching,
              .searchStarted aid (extractSearchQueries r1),
              .searchComplete aid (totalSources (executeSearches cfg (extractSearchQueries r1))),
              .agentState aid .thinking, .agentState aid .speaking,
              .message (mkTurnMsg cfg agent aid (phaseNameOf ph) r2 w)] ++
              (turnEscs cfg aid r2 w).map (fun e => .escalation e agent.name agent.emoji) ++
              [.agentState aid .idle], ?_⟩
          have hm : mkTurnMsg cfg agent aid (phaseNameOf ph) r2
              (setState aid .thinking
                (emit (.searchComplete aid (totalSources (executeSearches cfg (extractSearchQueries r1))))
                  (emit (.searchStarted aid (extractSearchQueries r1))
                    (setState aid .searching (setState aid .thinking w))))) =
              mkTurnMsg cfg agent aid (phaseNameOf ph) r2 w := rfl
          have hes : turnEscs cfg aid r2
              (setState aid .thinking
                (emit (.searchComplete aid (totalSources (executeSearches cfg (extractSearchQueries r1))))
                  (emit (.searchStarted aid (extractSearchQueries r1))
                    (setState aid .searching (setState aid .thinking w))))) =
              turnEscs cfg aid r2 w := rfl
          rw [hm, hes] at f5
          simp [hg, hb, hemp, hg2, f5, setState_events, emit_events, List.append_assoc]
    · obtain ⟨f1, f2, f3, f4, f5, f6, f7, f8, f9, f10⟩ :=
        finishTurn_spec cfg agent aid (phaseNameOf ph) r1 (setState aid .thinking w)
      refine ⟨[.agentState aid .speaking,
          .message (mkTurnMsg cfg agent aid (phaseNameOf ph) r1 (setState aid .thinking w))] ++
          (turnEscs cfg aid r1 (setState aid .thinking w)).map
            (fun e => .escalation e agent.name agent.emoji) ++ [.agentState aid .idle], ?_⟩
      simp [hg, hb, f5, setState_events, List.append_assoc]


theorem escMap_noSearchPhase (agent : Agent) (escs : List Esc) :
    ∀ e ∈ escs.map (fun e => Event.escalation e agent.name agent.emoji),
      evSearchStart e = false ∧ phaseProj e = none := by
  intro e he
  obtain ⟨esc, _, h⟩ := List.mem_map.mp he
  subst h
  exact ⟨rfl, rfl⟩

theorem runRoster_run (cfg : Config) (env : Env) (ph : Nat)
    (hgw : GwOk cfg) (htav : cfg.tavily = false) (henv : EnvTrivial env) :
    ∀ (roster : List String) (w : World),
      (∀ a ∈ roster, (AGENTS.find? (fun x => x.id = a)).isSome = true) →
      w.session.active = true →
      ((runRoster cfg env ph w roster).session.messages.map (fun m => (m.agentId, m.phase)) =
        w.session.messages.map (fun m => (m.agentId, m.phase)) ++
        roster.map (fun a => (a, phaseNameOf ph))) ∧
      (runRoster cfg env ph w roster).session.active = true ∧
      ∃ δ, (runRoster cfg env ph w roster).events = w.events ++ δ ∧
        (∀ e ∈ δ, evSearchStart e = false ∧ phaseProj e = none) := by
  intro roster
  induction roster with
  | nil =>
    intro w _ hact
    exact ⟨by simp [runRoster], by simp [runRoster, hact], [], by simp [runRoster], by simp⟩
  | cons a rest ih =>
    intro w hv hact
    obtain ⟨ag, hag⟩ := Option.isSome_iff_exists.mp (hv a (List.mem_cons_self a rest))
    have hact1 : (applyEnv cfg env w).session.active = true := by
      rw [applyEnv_trivial cfg env henv w]
      exact hact
    have hstep : runRoster cfg env ph w (a :: rest) =
        runRoster cfg env ph
          (runAgentTurn cfg (gate cfg env (applyEnv cfg env w)) a ph) rest := by
      simp only [runRoster]
      rw [if_pos hact1]
    obtain ⟨δg, g1, g2, g3, g4, g5⟩ := gate_trivial cfg env henv (applyEnv cfg env w)
    have hgsess : (gate cfg env (applyEnv cfg env w)).session = w.session := by
      rw [g1, applyEnv_trivial cfg env henv w]
    obtain ⟨r, hr⟩ := hgw ag.systemPrompt
      (buildContext cfg.fmtTime (gate cfg env (applyEnv cfg env w)).session a ph)
    have hbranch : (a = "research-scout" && cfg.tavily) = false := by
      simp [htav]
    obtain ⟨t1, t2, t3, t4, t5, t6, t7, t8, t9, t10⟩ :=
      runAgentTurn_ok cfg (gate cfg env (applyEnv cfg env w)) a ph ag r hag hr hbranch
    have hactT : (runAgentTurn cfg (gate cfg env (applyEnv cfg env w)) a ph).session.active = true := by
      rw [t6, hgsess]
      exact hact
    obtain ⟨ihm, iha, δr, ihe, ihp⟩ :=
      ih (runAgentTurn cfg (gate cfg env (applyEnv cfg env w)) a ph)
        (fun x hx => hv x (List.mem_cons_of_mem a hx)) hactT
    refine ⟨?_, ?_, ?_⟩
    · rw [hstep, ihm, t1, hgsess]
      simp [mkTurnMsg, List.append_assoc]
    · rw [hstep]
      exact iha
    · refine ⟨δg ++ ([.agentState a .thinking, .agentState a .speaking,
        .message (mkTurnMsg cfg ag a (phaseNameOf ph) r (gate cfg env (applyEnv cfg env w)))] ++
        (turnEscs cfg a r (gate cfg env (applyEnv cfg env w))).map
          (fun e => .escalation e ag.name ag.emoji) ++
        [.agentState a .idle]) ++ δr, ?_, ?_⟩
      · rw [hstep, ihe, t5, g4, applyEnv_trivial cfg env henv w]
        simp [List.append_assoc]
      · intro e he
        rcases List.mem_append.mp he with h | h
        · rcases List.mem_append.mp h with h | h
          · have hw := g5 e h
            cases e <;> simp_all [evWait, evSearchStart, phaseProj]
          · rcases List.mem_append.mp h with h | h
            · rcases List.mem_append.mp h with h | h
              · simp only [List.mem_cons, List.not_mem_nil, or_false] at h
                rcases h with h | h | h <;> simp [h, evSearchStart, phaseProj]
              · exact escMap_noSearchPhase ag _ e h
            · simp only [List.mem_singleton] at h
              simp [h, evSearchStart, phaseProj]
        · exact ihp e h

theorem filterMap_none_nil (δ : List Event) (h : ∀ e ∈ δ, phaseProj e = none) :
    δ.filterMap phaseProj = [] := by
  induction δ with
  | nil => rfl
  | cons x xs ih =>
    simp only [List.filterMap_cons, h x (List.mem_cons_self x xs)]
    exact ih (fun e he => h e (List.mem_cons_of_mem x he))

theorem runPhases_run (cfg : Config) (env : Env)
    (hgw : GwOk cfg) (htav : cfg.tavily = false) (henv : EnvTrivial env) :
    ∀ (L : List (Nat × Phase)) (w : World),
      (∀ p ∈ L, ∀ a ∈ p.2.agents, (AGENTS.find? (fun x => x.id = a)).isSome = true) →
      w.session.active = true →
      ((runPhases cfg env w L).session.messages.map (fun m => (m.agentId, m.phase)) =
        w.session.messages.map (fun m => (m.agentId, m.phase)) ++
        L.flatMap (fun p => p.2.agents.map (fun a => (a, phaseNameOf p.1)))) ∧
      (runPhases cfg env w L).session.active = true ∧
      ∃ δ, (runPhases cfg env w L).events = w.events ++ δ ∧
        (∀ e ∈ δ, evSearchStart e = false) ∧
        δ.filterMap phaseProj = L.map (fun p => (p.1, p.2.name, p.2.agents)) := by
  intro L
  induction L with
  | nil =>
    intro w _ hact
    exact ⟨by simp [runPhases], by simp [runPhases, hact], [], by simp [runPhases], by simp, by simp⟩
  | cons p rest ih =>
    obtain ⟨idx, ph⟩ := p
    intro w hv hact
    have hact1 : (applyEnv cfg env w).session.active = true := by
      rw [applyEnv_trivial cfg env henv w]
      exact hact
    have hstep : runPhases cfg env w ((idx, ph) :: rest) =
        runPhases cfg env
          (runRoster cfg env idx (startPhase cfg idx ph (applyEnv cfg env w)) ph.agents)
          rest := by
      simp only [runPhases]
      rw [if_pos hact1]
    obtain ⟨p1, p2, p3, p4, p5, p6⟩ := startPhase_spec cfg idx ph (applyEnv cfg env w)
    have hactS : (startPhase cfg idx ph (applyEnv cfg env w)).session.active = true := by
      rw [p4]
      exact hact1
    obtain ⟨rm, ra, δr, re, rp⟩ := runRoster_run cfg env idx hgw htav henv ph.agents
      (startPhase cfg idx ph (applyEnv cfg env w))
      (hv (idx, ph) (List.mem_cons_self _ _)) hactS
    obtain ⟨im, ia, δi, ie, isrch, iph⟩ :=
      ih (runRoster cfg env idx (startPhase cfg idx ph (applyEnv cfg env w)) ph.agents)
        (fun q hq => hv q (List.mem_cons_of_mem _ hq)) ra
    refine ⟨?_, ?_, ?_⟩
    · rw [hstep, im, rm, p2, applyEnv_trivial cfg env henv w]
      simp [List.append_assoc]
    · rw [hstep]
      exact ia
    · refine ⟨[.phaseChange idx ph.name ph.agents] ++ δr ++ δi, ?_, ?_, ?_⟩
      · rw [hstep, ie, re, p1, applyEnv_trivial cfg env henv w]
        simp [List.append_assoc]
      · intro e he
        rcases List.mem_append.mp he with h | h
        · rcases List.mem_append.mp h with h | h
          · simp only [List.mem_singleton] at h
            simp [h, evSearchStart]
          · exact (rp e h).1
        · exact isrch e h
      · have hδr : δr.filterMap phaseProj = [] :=
          filterMap_none_nil δr (fun e he => (rp e he).2)
        simp [List.filterMap_append, hδr, iph, phaseProj]


theorem extractSearchQueries_le (t : String) : (extractSearchQueries t).length ≤ 5 := by
  unfold extractSearchQueries
  simp [List.length_take]

theorem executeSearches_length (cfg : Config) (qs : List String) :
    (executeSearches cfg qs).length = qs.length := by
  simp [executeSearches]

theorem applyAnswers_createdAt : ∀ (l : List (String × Nat)) (r : DbEsc),
    (applyAnswers r l).createdAt = r.createdAt := by
  intro l
  induction l with
  | nil => intro r; rfl
  | cons p rest ih =>
    intro r
    obtain ⟨a, t⟩ := p
    simpa [applyAnswers, answerEscRow] using ih (answerEscRow r a t)

theorem applyAnswers_answered : ∀ (l : List (String × Nat)) (r : DbEsc),
    r.status = .answered → (applyAnswers r l).status = .answered := by
  intro l
  induction l with
  | nil => intro r h; exact h
  | cons p rest ih =>
    intro r _
    obtain ⟨a, t⟩ := p
    exact ih (answerEscRow r a t) rfl

theorem applyAnswers_last : ∀ (l : List (String × Nat)) (r : DbEsc), l ≠ [] →
    ∃ p ∈ l, applyAnswers r l = answerEscRow r p.1 p.2 := by
  intro l
  induction l with
  | nil => intro r h; exact absurd rfl h
  | cons p rest ih =>
    intro r _
    obtain ⟨a, t⟩ := p
    by_cases hr : rest = []
    · subst hr
      exact ⟨(a, t), List.mem_cons_self _ _, rfl⟩
    · obtain ⟨q, hq, heq⟩ := ih (answerEscRow r a t) hr
      refine ⟨q, List.mem_cons_of_mem _ hq, ?_⟩
      simpa [applyAnswers, answerEscRow] using heq

theorem applyAnswers_append : ∀ (xs ys : List (String × Nat)) (r : DbEsc),
    applyAnswers r (xs ++ ys) = applyAnswers (applyAnswers r xs) ys := by
  intro xs
  induction xs with
  | nil => intro ys r; rfl
  | cons p rest ih =>
    intro ys r
    obtain ⟨a, t⟩ := p
    simpa [applyAnswers] using ih ys (answerEscRow r a t)

/-- C6: the escalation status column, replayed through the only two SQL
statements that touch it (`insertEscalation`, `answerEscalation`), starts
pending with a null answer, transitions only pending to answered and never
back, and whenever the row is answered its answer is non-null and its
`answered_at` is at least its `created_at` (under wall-clock monotonicity:
every answer submission happens no earlier than the row's creation). -/
theorem claimC6 (eid aid aname aemoji q : String) (t0 : Nat)
    (answers : List (String × Nat)) (hmono : ∀ p ∈ answers, t0 ≤ p.2) :
    (insertEscRow eid aid aname aemoji q t0).status = .pending ∧
    (insertEscRow eid aid aname aemoji q t0).answer = none ∧
    (∀ k, (applyAnswers (insertEscRow eid aid aname aemoji q t0) (answers.take k)).status = .answered →
      (applyAnswers (insertEscRow eid aid aname aemoji q t0) (answers.take (k + 1))).status = .answered) ∧
    ((applyAnswers (insertEscRow eid aid aname aemoji q t0) answers).status = .answered →
      (applyAnswers (insertEscRow eid aid aname aemoji q t0) answers).answer ≠ none ∧
      ∃ ta, (applyAnswers (insertEscRow eid aid aname aemoji q t0) answers).answeredAt = some ta ∧
        (applyAnswers (insertEscRow eid aid aname aemoji q t0) answers).createdAt ≤ ta) ∧
    ((applyAnswers (insertEscRow eid aid aname aemoji q t0) answers).status = .pending ↔ answers = []) := by
  refine ⟨rfl, rfl, ?_, ?_, ?_⟩
  · intro k hk
    rw [List.take_succ, applyAnswers_append]
    exact applyAnswers_answered _ _ hk
  · intro hans
    by_cases hn : answers = []
    · rw [hn] at hans
      exact absurd hans (by simp [applyAnswers, insertEscRow])
    · obtain ⟨p, hp, heq⟩ := applyAnswers_last answers (insertEscRow eid aid aname aemoji q t0) hn
      rw [heq]
      exact ⟨by simp [answerEscRow], p.2, by simp [answerEscRow],
        by simpa [answerEscRow, insertEscRow] using hmono p hp⟩
  · constructor
    · intro hpend
      by_contra hn
      obtain ⟨p, hp, heq⟩ := applyAnswers_last answers (insertEscRow eid aid aname aemoji q t0) hn
      rw [heq] at hpend
      simp [answerEscRow] at hpend
    · intro hn
      rw [hn]
      rfl

theorem claimC6_witness :
    (∀ p ∈ [("yes", 7)], 3 ≤ (p : String × Nat).2) ∧
    ((insertEscRow "e9" "red-teamer" "Red Teamer" "🔴" "Scope?" 3).status = .pending ∧
      (insertEscRow "e9" "red-teamer" "Red Teamer" "🔴" "Scope?" 3).answer = none ∧
      (∀ k, (applyAnswers (insertEscRow "e9" "red-teamer" "Red Teamer" "🔴" "Scope?" 3)
          (List.take k [("yes", 7)])).status = .answered →
        (applyAnswers (insertEscRow "e9" "red-teamer" "Red Teamer" "🔴" "Scope?" 3)
          (List.take (k + 1) [("yes", 7)])).status = .answered) ∧
      ((applyAnswers (insertEscRow "e9" "red-teamer" "Red Teamer" "🔴" "Scope?" 3)
          [("yes", 7)]).status = .answered →
        (applyAnswers (insertEscRow "e9" "red-teamer" "Red Teamer" "🔴" "Scope?" 3)
          [("yes", 7)]).answer ≠ none ∧
        ∃ ta, (applyAnswers (insertEscRow "e9" "red-teamer" "Red Teamer" "🔴" "Scope?" 3)
            [("yes", 7)]).answeredAt = some ta ∧
          (applyAnswers (insertEscRow "e9" "red-teamer" "Red Teamer" "🔴" "Scope?" 3)
            [("yes", 7)]).createdAt ≤ ta) ∧
      ((applyAnswers (insertEscRow "e9" "red-teamer" "Red Teamer" "🔴" "Scope?" 3)
          [("yes", 7)]).status = .pending ↔ ([("yes", 7)] : List (String × Nat)) = [])) :=
  ⟨by decide, claimC6 "e9" "red-teamer" "Red Teamer" "🔴" "Scope?" 3 [("yes", 7)] (by decide)⟩

/-- C2: for every run of the deliberation loop, the final notification is
`deliberation-complete` and the message count in its export-readiness
summary equals the number of messages persisted for the session, provided
the in-memory and persisted message counts agreed when the run started
(they are both zero at `createSession`). -/
theorem claimC2 (cfg : Config) (env : Env) (w : World)
    (hsync : w.session.messages.length = w.db.messages.length) :
    (runDeliberation cfg env w).events.getLast? = some (.deliberationComplete
      ((runDeliberation cfg env w).db.messages.length)
      (((runDeliberation cfg env w).db.messages.filter (fun m => m.phase = "Synthesis")).length)
      ((runDeliberation cfg env w).db.escalations.length)) := by
  unfold runDeliberation
  obtain ⟨c1, c2, c3, c4, c5, c6, c7⟩ :=
    completeDeliberation_spec cfg (runPhases cfg env w PHASES.enum)
  obtain ⟨j, δ, ms, hj, he, hf, hm, hd, ha, hs⟩ := runPhases_frame cfg env PHASES.enum w
  rw [c1, List.getLast?_concat, c3, c7]
  have hlen : (runPhases cfg env w PHASES.enum).session.messages.length =
      (runPhases cfg env w PHASES.enum).db.messages.length := by
    rw [hm, hd]
    simp [hsync]
  rw [hlen]

theorem claimC2_witness :
    (runDeliberation cfgW envW w0).events.getLast? = some (.deliberationComplete
      ((runDeliberation cfgW envW w0).db.messages.length)
      (((runDeliberation cfgW envW w0).db.messages.filter (fun m => m.phase = "Synthesis")).length)
      ((runDeliberation cfgW envW w0).db.escalations.length)) :=
  claimC2 cfgW envW w0 rfl

/-- C10: once the deliberation loop finishes (or the session is stopped)
the session is removed from the active-session registry, and the
`escalation-response` handler is a silent no-op on any world whose session
is not registered — so any sequence of escalation-response calls leaves
every record, in particular every still-pending escalation, unchanged. -/
theorem claimC10 :
    (∀ (cfg : Config) (env : Env) (w : World), (runDeliberation cfg env w).inRegistry = false) ∧
    (∀ (w : World) (sid eid a : String) (t : Nat), w.inRegistry = false →
      handleEscalationResponse w sid eid a t = w) ∧
    (∀ (w : World) (calls : List (String × String × String × Nat)), w.inRegistry = false →
      calls.foldl (fun acc c => handleEscalationResponse acc c.1 c.2.1 c.2.2.1 c.2.2.2) w = w) := by
  have hnoop : ∀ (w : World) (sid eid a : String) (t : Nat), w.inRegistry = false →
      handleEscalationResponse w sid eid a t = w := by
    intro w sid eid a t hreg
    unfold handleEscalationResponse
    rw [if_neg]
    simp [hreg]
  refine ⟨?_, hnoop, ?_⟩
  · intro cfg env w
    unfold runDeliberation
    exact (completeDeliberation_spec cfg (runPhases cfg env w PHASES.enum)).2.2.2.2.2.1
  · intro w calls
    induction calls with
    | nil => intro _; rfl
    | cons c rest ih =>
      intro hreg
      simp only [List.foldl_cons]
      rw [hnoop w c.1 c.2.1 c.2.2.1 c.2.2.2 hreg]
      exact ih hreg

theorem claimC10_witness :
    (runDeliberation cfgW envW w0).inRegistry = false ∧
    handleEscalationResponse wDone "sess-1" "e2" "late answer" 99 = wDone ∧
    [("sess-1", "e2", "a1", 50), ("sess-1", "e2", "a2", 60)].foldl
      (fun acc c => handleEscalationResponse acc c.1 c.2.1 c.2.2.1 c.2.2.2) wDone = wDone :=
  ⟨claimC10.1 cfgW envW w0, claimC10.2.1 wDone "sess-1" "e2" "late answer" 99 rfl,
   claimC10.2.2 wDone _ rfl⟩

/-- C9: the `stop-session` handler is idempotent — a second call finds the
session gone from the registry and does nothing, so the state after two
calls equals the state after one; a successful stop clears the active flag
in memory and in the database and deregisters the session; and once the
active flag is false the phase loop runs no further agent turns: it leaves
all messages untouched and emits only externally caused notifications. -/
theorem claimC9 :
    (∀ (w : World) (sid : String), handleStop (handleStop w sid) sid = handleStop w sid) ∧
    (∀ (w : World) (sid : String), w.inRegistry = true → w.session.sid = sid →
      (handleStop w sid).session.active = false ∧
      (handleStop w sid).db.sessionActive = false ∧
      (handleStop w sid).inRegistry = false) ∧
    (∀ (cfg : Config) (env : Env) (w : World) (L : List (Nat × Phase)),
      w.session.active = false →
      (runPhases cfg env w L).session.messages = w.session.messages ∧
      (runPhases cfg env w L).db.messages = w.db.messages ∧
      ∃ δ, (runPhases cfg env w L).events = w.events ++ δ ∧ ∀ e ∈ δ, evExternal e = true) := by
  refine ⟨?_, ?_, ?_⟩
  · intro w sid
    by_cases hc : (w.inRegistry && decide (w.session.sid = sid)) = true
    · have hinner : handleStop w sid = emit .sessionStopped
          { w with session := { w.session with active := false },
                   db := { w.db with sessionActive := false },
                   inRegistry := false } := by
        unfold handleStop
        rw [if_pos hc]
      rw [hinner]
      unfold handleStop
      rw [if_neg (by simp [emit])]
    · unfold handleStop
      rw [if_neg hc, if_neg hc]
  · intro w sid hreg hsid
    unfold handleStop
    rw [if_pos (by simp [hreg, hsid])]
    exact ⟨rfl, rfl, rfl⟩
  · intro cfg env w L hact
    cases L with
    | nil => exact ⟨rfl, rfl, [], by simp [runPhases], by simp⟩
    | cons p rest =>
      obtain ⟨idx, ph⟩ := p
      obtain ⟨δ, e1, t1, m1, d1, ac1, s1⟩ := applyEnv_frame cfg env w
      have hact1 : ¬ (applyEnv cfg env w).session.active = true := by
        intro h
        have := ac1 h
        rw [hact] at this
        exact Bool.false_ne_true this
      have hstep : runPhases cfg env w ((idx, ph) :: rest) = applyEnv cfg env w := by
        simp only [runPhases]
        rw [if_neg hact1]
      rw [hstep]
      exact ⟨m1, d1, δ, e1, t1⟩

theorem claimC9_witness :
    ((handleStop wC1 "sess-1").session.active = false ∧
      (handleStop wC1 "sess-1").db.sessionActive = false ∧
      (handleStop wC1 "sess-1").inRegistry = false) ∧
    ((runPhases cfgW envW wInactive PHASES.enum).session.messages = wInactive.session.messages ∧
      (runPhases cfgW envW wInactive PHASES.enum).db.messages = wInactive.db.messages ∧
      ∃ δ, (runPhases cfgW envW wInactive PHASES.enum).events = wInactive.events ++ δ ∧
        ∀ e ∈ δ, evExternal e = true) :=
  ⟨claimC9.2.1 wC1 "sess-1" rfl rfl, claimC9.2.2 cfgW envW wInactive PHASES.enum rfl⟩

/-- C1 counterexample: submitting an answer for an escalation whose status
is already answered is not rejected and mutates session state — the stored
answer flips from "old" to "new" and an `escalation-answered` notification
is broadcast, contradicting the claimed `AlreadyAnswered` rejection with
no state mutation. -/
theorem claimC1_counterexample :
    wC1.session.escalations.map (fun e => e.answer) = [some "old"] ∧
    (handleEscalationResponse wC1 "sess-1" "e1" "new" 10).session.escalations.map
      (fun e => e.answer) = [some "new"] ∧
    (handleEscalationResponse wC1 "sess-1" "e1" "new" 10).db.escalations.map
      (fun r => (r.answer, r.answeredAt)) = [(some "new", some 10)] ∧
    (handleEscalationResponse wC1 "sess-1" "e1" "new" 10).events =
      wC1.events ++ [.escalationAnswered "e1" "new"] := by
  refine ⟨by decide, ?_, ?_, ?_⟩ <;>
    simp [handleEscalationResponse, wC1, w0, mkWorld, escAnswered, answerFirst,
      answerEscRow, insertEscRow, emit]

/-- C1 (amended): the `escalation-response` operation looks the session up
only in the active registry and silently ignores the call (no state
mutated, no notification) when the session is absent or the escalation id
matches no escalation of the session; when the escalation is found it is
answered unconditionally — even an already-answered escalation is
re-answered, overwriting its answer and `answered_at`, rather than being
rejected with `AlreadyAnswered`. -/
theorem claimC1 (w : World) (sid eid a : String) (t : Nat) :
    ((w.inRegistry && decide (w.session.sid = sid)) = false →
      handleEscalationResponse w sid eid a t = w) ∧
    (w.session.escalations.find? (fun e => e.id = eid) = none →
      handleEscalationResponse w sid eid a t = w) ∧
    (∀ esc, (w.inRegistry && decide (w.session.sid = sid)) = true →
      w.session.escalations.find? (fun e => e.id = eid) = some esc →
      (handleEscalationResponse w sid eid a t).session.escalations =
        answerFirst eid a w.session.escalations ∧
      (handleEscalationResponse w sid eid a t).db.escalations =
        w.db.escalations.map (fun r => if r.id = eid then answerEscRow r a t else r) ∧
      (handleEscalationResponse w sid eid a t).events =
        w.events ++ [.escalationAnswered eid a]) := by
  refine ⟨?_, ?_, ?_⟩
  · intro hc
    unfold handleEscalationResponse
    rw [if_neg (by simp_all)]
  · intro hfind
    unfold handleEscalationResponse
    split
    · rw [hfind]
    · rfl
  · intro esc hc hfind
    unfold handleEscalationResponse
    rw [if_pos (by simp_all), hfind]
    exact ⟨rfl, rfl, rfl⟩

theorem claimC1_witness :
    ((wPend.inRegistry && decide (wPend.session.sid = "other-session")) = false ∧
      handleEscalationResponse wPend "other-session" "e2" "ans" 7 = wPend) ∧
    (wPend.session.escalations.find? (fun e => e.id = "missing") = none ∧
      handleEscalationResponse wPend "sess-1" "missing" "ans" 7 = wPend) ∧
    ((handleEscalationResponse wPend "sess-1" "e2" "ans" 7).session.escalations =
      answerFirst "e2" "ans" wPend.session.escalations ∧
      (handleEscalationResponse wPend "sess-1" "e2" "ans" 7).db.escalations =
        wPend.db.escalations.map (fun r => if r.id = "e2" then answerEscRow r "ans" 7 else r) ∧
      (handleEscalationResponse wPend "sess-1" "e2" "ans" 7).events =
        wPend.events ++ [.escalationAnswered "e2" "ans"]) :=
  ⟨⟨by decide, (claimC1 wPend "other-session" "e2" "ans" 7).1 (by decide)⟩,
   ⟨by decide, (claimC1 wPend "sess-1" "missing" "ans" 7).2.1 (by decide)⟩,
   (claimC1 wPend "sess-1" "e2" "ans" 7).2.2 escPending (by decide) (by decide)⟩


set_option maxRecDepth 10000 in
/-- C5 counterexample: a model output carrying six escalation markers
creates six Escalation records in one turn — the scan matches one question
per marker line with no cap on the count (unlike the search extractor's
five-query cap), so the claimed bounded-count scan does not exist. -/
theorem claimC5_counterexample :
    (extractEscalationQuestions sixMarkerText).length = 6 ∧
    (runAgentTurn cfgC5 w0 "process-architect" 0).session.escalations.length = 6 ∧
    (runAgentTurn cfgC5 w0 "process-architect" 0).db.escalations.length = 6 := by
  refine ⟨by decide, by decide, by decide⟩

/-- C5 (amended): for every successful non-search turn, the final output
is scanned line-by-line for `NEED_HUMAN_INPUT:` markers with no cap on the
match count; exactly one Escalation is created per matching line, carrying
the literal (trimmed) question text, answered-flag false and null answer
in memory, a pending row with null answer in the database, and one
`escalation` notification each. -/
theorem claimC5 (cfg : Config) (w : World) (aid : String) (ph : Nat)
    (agent : Agent) (r : String)
    (hfind : AGENTS.find? (fun a => a.id = aid) = some agent)
    (hok : cfg.gw agent.systemPrompt (buildContext cfg.fmtTime w.session aid ph) = .ok r)
    (hbranch : (aid = "research-scout" && cfg.tavily) = false) :
    (runAgentTurn cfg w aid ph).session.escalations =
      w.session.escalations ++ turnEscs cfg aid r w ∧
    (turnEscs cfg aid r w).map Esc.question = extractEscalationQuestions r ∧
    (turnEscs cfg aid r w).length = (extractEscalationQuestions r).length ∧
    (∀ e ∈ turnEscs cfg aid r w, e.answered = false ∧ e.answer = none ∧ e.agentId = aid) ∧
    (runAgentTurn cfg w aid ph).db.escalations = w.db.escalations ++
      (turnEscs cfg aid r w).map
        (fun e => insertEscRow e.id e.agentId agent.name agent.emoji e.question e.createdAt) ∧
    (∀ row ∈ (turnEscs cfg aid r w).map
        (fun e => insertEscRow e.id e.agentId agent.name agent.emoji e.question e.createdAt),
      row.status = .pending ∧ row.answer = none) ∧
    (runAgentTurn cfg w aid ph).events = w.events ++
      [.agentState aid .thinking, .agentState aid .speaking,
       .message (mkTurnMsg cfg agent aid (phaseNameOf ph) r w)] ++
      (turnEscs cfg aid r w).map (fun e => .escalation e agent.name agent.emoji) ++
      [.agentState aid .idle] := by
  obtain ⟨t1, t2, t3, t4, t5, t6, t7, t8, t9, t10⟩ :=
    runAgentTurn_ok cfg w aid ph agent r hfind hok hbranch
  have hq : (turnEscs cfg aid r w).map Esc.question = extractEscalationQuestions r :=
    (mintEscalations_list cfg aid w.session.sid (extractEscalationQuestions r)
      (w.idIdx + 1) (w.clockIdx + 1)).1
  refine ⟨t3, hq, ?_, ?_, t4, ?_, t5⟩
  · rw [← hq, List.length_map]
  · intro e he
    have := (mintEscalations_list cfg aid w.session.sid (extractEscalationQuestions r)
      (w.idIdx + 1) (w.clockIdx + 1)).2 e he
    exact ⟨this.1, this.2.1, this.2.2.1⟩
  · intro row hrow
    obtain ⟨e, _, hre⟩ := List.mem_map.mp hrow
    subst hre
    exact ⟨rfl, rfl⟩

theorem claimC5_witness :
    (AGENTS.find? (fun a => a.id = "process-architect") = some processArchitect) ∧
    ((runAgentTurn cfgC5 w0 "process-architect" 0).session.escalations =
      w0.session.escalations ++ turnEscs cfgC5 "process-architect" sixMarkerText w0 ∧
    (turnEscs cfgC5 "process-architect" sixMarkerText w0).map Esc.question =
      extractEscalationQuestions sixMarkerText ∧
    (turnEscs cfgC5 "process-architect" sixMarkerText w0).length =
      (extractEscalationQuestions sixMarkerText).length ∧
    (∀ e ∈ turnEscs cfgC5 "process-architect" sixMarkerText w0,
      e.answered = false ∧ e.answer = none ∧ e.agentId = "process-architect") ∧
    (runAgentTurn cfgC5 w0 "process-architect" 0).db.escalations = w0.db.escalations ++
      (turnEscs cfgC5 "process-architect" sixMarkerText w0).map
        (fun e => insertEscRow e.id e.agentId processArchitect.name processArchitect.emoji
          e.question e.createdAt) ∧
    (∀ row ∈ (turnEscs cfgC5 "process-architect" sixMarkerText w0).map
        (fun e => insertEscRow e.id e.agentId processArchitect.name processArchitect.emoji
          e.question e.createdAt),
      row.status = .pending ∧ row.answer = none) ∧
    (runAgentTurn cfgC5 w0 "process-architect" 0).events = w0.events ++
      [.agentState "process-architect" .thinking, .agentState "process-architect" .speaking,
       .message (mkTurnMsg cfgC5 processArchitect "process-architect" (phaseNameOf 0)
         sixMarkerText w0)] ++
      (turnEscs cfgC5 "process-architect" sixMarkerText w0).map
        (fun e => .escalation e processArchitect.name processArchitect.emoji) ++
      [.agentState "process-architect" .idle]) :=
  ⟨rfl, claimC5 cfgC5 w0 "process-architect" 0 processArchitect sixMarkerText rfl rfl rfl⟩

/-- C3: a Model Gateway failure is contained inside the turn executor —
the agent reverts to idle, exactly one `error` notification naming the
agent and the reason is broadcast, no message is recorded in memory or in
the database, no escalation is created, the session stays active, and in
the roster loop the very next agent's turn still begins (its `thinking`
notification follows the error). -/
theorem claimC3 (cfg : Config) (env : Env) (w : World) (a b : String)
    (rest : List String) (ph : Nat) (agentA agentB : Agent) (reason : String)
    (hfindA : AGENTS.find? (fun x => x.id = a) = some agentA)
    (hfindB : AGENTS.find? (fun x => x.id = b) = some agentB)
    (herr : cfg.gw agentA.systemPrompt (buildContext cfg.fmtTime w.session a ph) = .error reason)
    (henv : EnvTrivial env)
    (hact : w.session.active = true)
    (hnp : w.session.escalations.filter (fun e => !e.answered) = []) :
    (runAgentTurn cfg w a ph).session.messages = w.session.messages ∧
    (runAgentTurn cfg w a ph).db.messages = w.db.messages ∧
    (runAgentTurn cfg w a ph).session.escalations = w.session.escalations ∧
    (runAgentTurn cfg w a ph).events = w.events ++
      [.agentState a .thinking, .agentState a .idle,
       .error a (agentA.name ++ " encountered an error: " ++ reason)] ∧
    (runAgentTurn cfg w a ph).session.agentStates a = .idle ∧
    (runAgentTurn cfg w a ph).session.active = w.session.active ∧
    ∃ δ, (runRoster cfg env ph w (a :: b :: rest)).events = w.events ++
      [.agentState a .thinking, .agentState a .idle,
       .error a (agentA.name ++ " encountered an error: " ++ reason),
       .agentState b .thinking] ++ δ := by
  obtain ⟨x1, x2, x3, x4, x5, x6, x7, x8, x9, x10⟩ :=
    runAgentTurn_fail cfg w a ph agentA reason hfindA herr
  refine ⟨x1, x2, x3, x5, x10, x6, ?_⟩
  have hW1 : applyEnv cfg env w = { w with envIdx := w.envIdx + 1 } :=
    applyEnv_trivial cfg env henv w
  have hact1 : (applyEnv cfg env w).session.active = true := by
    rw [hW1]
    exact hact
  have hstep1 : runRoster cfg env ph w (a :: b :: rest) =
      runRoster cfg env ph
        (runAgentTurn cfg (gate cfg env (applyEnv cfg env w)) a ph) (b :: rest) := by
    simp only [runRoster]
    rw [if_pos hact1]
  have hgate1 : gate cfg env (applyEnv cfg env w) = applyEnv cfg env w := by
    refine gate_neg_step cfg env _ ?_
    rw [hW1]
    simp [hnp]
  obtain ⟨y1, y2, y3, y4, y5, y6, y7, y8, y9, y10⟩ :=
    runAgentTurn_fail cfg { w with envIdx := w.envIdx + 1 } a ph agentA reason hfindA herr
  have hWf : runAgentTurn cfg (gate cfg env (applyEnv cfg env w)) a ph =
      runAgentTurn cfg { w with envIdx := w.envIdx + 1 } a ph := by
    rw [hgate1, hW1]
  have hactf : (runAgentTurn cfg { w with envIdx := w.envIdx + 1 } a ph).session.active = true := by
    rw [y6]
    exact hact
  have hactf1 : (applyEnv cfg env
      (runAgentTurn cfg { w with envIdx := w.envIdx + 1 } a ph)).session.active = true := by
    rw [applyEnv_trivial cfg env henv _]
    exact hactf
  have hstep2 : runRoster cfg env ph
      (runAgentTurn cfg { w with envIdx := w.envIdx + 1 } a ph) (b :: rest) =
      runRoster cfg env ph
        (runAgentTurn cfg
          (gate cfg env (applyEnv cfg env (runAgentTurn cfg { w with envIdx := w.envIdx + 1 } a ph)))
          b ph) rest := by
    simp only [runRoster]
    rw [if_pos hactf1]
  have hgate2 : gate cfg env
      (applyEnv cfg env (runAgentTurn cfg { w with envIdx := w.envIdx + 1 } a ph)) =
      applyEnv cfg env (runAgentTurn cfg { w with envIdx := w.envIdx + 1 } a ph) := by
    refine gate_neg_step cfg env _ ?_
    rw [applyEnv_trivial cfg env henv _]
    simp [y3, hW1, hnp]
  obtain ⟨δb, hδb⟩ := runAgentTurn_start cfg
    (applyEnv cfg env (runAgentTurn cfg { w with envIdx := w.envIdx + 1 } a ph)) b ph agentB hfindB
  obtain ⟨δr, msr, hre, _, _, _, _, _⟩ := runRoster_frame cfg env ph rest
    (runAgentTurn cfg
      (applyEnv cfg env (runAgentTurn cfg { w with envIdx := w.envIdx + 1 } a ph)) b ph)
  refine ⟨δb ++ δr, ?_⟩
  rw [hstep1, hWf, hstep2, hgate2, hre, hδb, applyEnv_trivial cfg env henv _]
  simp [y5, hW1, List.append_assoc]

/-- Closed witness for `claimC3`: the failing gateway `cfgC3` at the fresh
world `w0`, with `red-teamer` failing and `convergent-evaluator` next. -/
theorem claimC3_witness :
    (AGENTS.find? (fun x => x.id = "red-teamer") = some redTeamer ∧
     cfgC3.gw redTeamer.systemPrompt
       (buildContext cfgC3.fmtTime w0.session "red-teamer" 2) = .error "boom") ∧
    ((runAgentTurn cfgC3 w0 "red-teamer" 2).session.messages = w0.session.messages ∧
     (runAgentTurn cfgC3 w0 "red-teamer" 2).db.messages = w0.db.messages ∧
     (runAgentTurn cfgC3 w0 "red-teamer" 2).session.escalations = w0.session.escalations ∧
     (runAgentTurn cfgC3 w0 "red-teamer" 2).events = w0.events ++
       [.agentState "red-teamer" .thinking, .agentState "red-teamer" .idle,
        .error "red-teamer" (redTeamer.name ++ " encountered an error: " ++ "boom")] ∧
     (runAgentTurn cfgC3 w0 "red-teamer" 2).session.agentStates "red-teamer" = .idle ∧
     (runAgentTurn cfgC3 w0 "red-teamer" 2).session.active = w0.session.active ∧
     ∃ δ, (runRoster cfgC3 envW 2 w0
        ["red-teamer", "convergent-evaluator"]).events = w0.events ++
       [.agentState "red-teamer" .thinking, .agentState "red-teamer" .idle,
        .error "red-teamer" (redTeamer.name ++ " encountered an error: " ++ "boom"),
        .agentState "convergent-evaluator" .thinking] ++ δ) :=
  ⟨⟨rfl, rfl⟩, claimC3 cfgC3 envW w0 "red-teamer" "convergent-evaluator" [] 2
    redTeamer convergentEvaluator "boom" rfl rfl rfl (fun _ => rfl) rfl rfl⟩

/-- C7: before an agent turn with pending escalations, the scheduler
broadcasts `waiting-for-human` with the pending count and polls in
2000 ms steps up to the 300000 ms ceiling; the poll ends only because no
escalation is pending any more, the ceiling was reached, or the session
became inactive; on reaching the ceiling an `escalation-timeout`
notification is broadcast; and the roster step still runs the agent turn
on the gated world afterwards. -/
theorem claimC7 (cfg : Config) (env : Env) (w : World) (aid : String)
    (rest : List String) (ph : Nat)
    (hp : 0 < pendingCount w) :
    gate cfg env w =
      (if 300000 ≤ (pollAfterNotify cfg env w).2
       then emit .escalationTimeout (pollAfterNotify cfg env w).1
       else (pollAfterNotify cfg env w).1) ∧
    (∃ δ, (∀ e ∈ δ, evExternal e = true) ∧
      (pollAfterNotify cfg env w).1.events =
        w.events ++ [.waitingForHuman (pendingCount w)] ++ δ) ∧
    (2000 ∣ (pollAfterNotify cfg env w).2 ∧ (pollAfterNotify cfg env w).2 ≤ 300000) ∧
    ((pollAfterNotify cfg env w).1.session.escalations.any (fun e => !e.answered) = false ∨
      300000 ≤ (pollAfterNotify cfg env w).2 ∨
      (pollAfterNotify cfg env w).1.session.active = false) ∧
    (runRoster cfg env ph w (aid :: rest) =
      if (applyEnv cfg env w).session.active = true
      then runRoster cfg env ph (runAgentTurn cfg (gate cfg env (applyEnv cfg env w)) aid ph) rest
      else applyEnv cfg env w) := by
  have hp0 : 0 < (w.session.escalations.filter (fun e => !e.answered)).length := hp
  refine ⟨?_, ?_, ?_, ?_, ?_⟩
  · simp only [pollAfterNotify, pendingCount]
    exact gate_pos_step cfg env w hp0
  · obtain ⟨δ, h1, h2, _, _, _, _⟩ := pollLoop_frame cfg env 151
      (emit (.waitingForHuman (pendingCount w)) w) 0
    refine ⟨δ, h2, ?_⟩
    simp only [pollAfterNotify]
    rw [h1, emit_events]
  · exact pollLoop_waited cfg env 151
      (emit (.waitingForHuman (pendingCount w)) w) 0 ⟨0, rfl⟩ (by omega)
  · exact pollLoop_exit cfg env 151
      (emit (.waitingForHuman (pendingCount w)) w) 0 (by omega)
  · rfl

/-- Closed witness for `claimC7`: the world `wPend` with one pending
escalation and the trivial environment, so the poll runs to the ceiling. -/
theorem claimC7_witness :
    0 < pendingCount wPend ∧
    (gate cfgW envW wPend =
      (if 300000 ≤ (pollAfterNotify cfgW envW wPend).2
       then emit .escalationTimeout (pollAfterNotify cfgW envW wPend).1
       else (pollAfterNotify cfgW envW wPend).1) ∧
    (∃ δ, (∀ e ∈ δ, evExternal e = true) ∧
      (pollAfterNotify cfgW envW wPend).1.events =
        wPend.events ++ [.waitingForHuman (pendingCount wPend)] ++ δ) ∧
    (2000 ∣ (pollAfterNotify cfgW envW wPend).2 ∧
      (pollAfterNotify cfgW envW wPend).2 ≤ 300000) ∧
    ((pollAfterNotify cfgW envW wPend).1.session.escalations.any
        (fun e => !e.answered) = false ∨
      300000 ≤ (pollAfterNotify cfgW envW wPend).2 ∨
      (pollAfterNotify cfgW envW wPend).1.session.active = false) ∧
    (runRoster cfgW envW 0 wPend ["process-architect"] =
      if (applyEnv cfgW envW wPend).session.active = true
      then runRoster cfgW envW 0
        (runAgentTurn cfgW (gate cfgW envW (applyEnv cfgW envW wPend)) "process-architect" 0) []
      else applyEnv cfgW envW wPend)) :=
  ⟨by decide, claimC7 cfgW envW wPend "process-architect" [] 0 (by decide)⟩

set_option maxRecDepth 10000 in
/-- C4 counterexample: with the search gateway `cfgC4`, whose second
model response still contains a SEARCH directive, the message persisted
for the research-scout turn is that second response verbatim — so it does
contain a `SEARCH:` directive, contrary to the claim; nothing in
`runAgentTurn` strips directives from the persisted content. -/
theorem claimC4_counterexample :
    (runAgentTurn cfgC4 w0 "research-scout" 1).session.messages.map
      (fun m => m.content) = ["SEARCH: leftover query"] ∧
    extractSearchQueries "SEARCH: leftover query" ≠ [] := by
  refine ⟨by decide, by decide⟩

/-- C4 (amended): for a research-scout turn with the search gateway
configured and a first model output containing search directives, at most
5 queries are extracted, every extracted query is executed, the events of
the turn are `search-started` followed by `search-complete` around the
sub-protocol, a second Model Gateway call supplies the response `r2` that
replaces the first as the turn's output, and the message persisted for
the turn has exactly `r2` as its content — the server does not remove any
remaining `SEARCH:` directive from it. -/
theorem claimC4 (cfg : Config) (w : World) (ph : Nat)
    (agent : Agent) (r1 r2 : String)
    (hfind : AGENTS.find? (fun a => a.id = "research-scout") = some agent)
    (htav : cfg.tavily = true)
    (h1 : cfg.gw agent.systemPrompt
      (buildContext cfg.fmtTime w.session "research-scout" ph) = .ok r1)
    (hqs : (extractSearchQueries r1).isEmpty = false)
    (h2 : cfg.gw agent.systemPrompt
      (synthMessages cfg (buildContext cfg.fmtTime w.session "research-scout" ph) r1) = .ok r2) :
    (extractSearchQueries r1).length ≤ 5 ∧
    (executeSearches cfg (extractSearchQueries r1)).length = (extractSearchQueries r1).length ∧
    (runAgentTurn cfg w "research-scout" ph).session.messages =
      w.session.messages ++ [mkTurnMsg cfg agent "research-scout" (phaseNameOf ph) r2 w] ∧
    (runAgentTurn cfg w "research-scout" ph).db.messages =
      w.db.messages ++ [mkTurnMsg cfg agent "research-scout" (phaseNameOf ph) r2 w] ∧
    (mkTurnMsg cfg agent "research-scout" (phaseNameOf ph) r2 w).content = r2 ∧
    (runAgentTurn cfg w "research-scout" ph).events = w.events ++
      [.agentState "research-scout" .thinking,
       .agentState "research-scout" .searching,
       .searchStarted "research-scout" (extractSearchQueries r1),
       .searchComplete "research-scout" (totalSources (executeSearches cfg (extractSearchQueries r1))),
       .agentState "research-scout" .thinking,
       .agentState "research-scout" .speaking,
       .message (mkTurnMsg cfg agent "research-scout" (phaseNameOf ph) r2 w)] ++
      (turnEscs cfg "research-scout" r2 w).map (fun e => .escalation e agent.name agent.emoji) ++
      [.agentState "research-scout" .idle] := by
  obtain ⟨s1, s2, s3, _⟩ := runAgentTurn_search cfg w ph agent r1 r2 hfind htav h1 hqs h2
  exact ⟨extractSearchQueries_le r1, executeSearches_length cfg (extractSearchQueries r1),
    s1, s2, rfl, s3⟩

set_option maxRecDepth 10000 in
/-- Closed witness for `claimC4`: the gateway `cfgC4` answers the first
call with two-line output containing a SEARCH directive and the synthesis
call with another directive-bearing line. -/
theorem claimC4_witness :
    ((extractSearchQueries "SEARCH: alpha query\nrest").isEmpty = false ∧
     cfgC4.tavily = true) ∧
    ((extractSearchQueries "SEARCH: alpha query\nrest").length ≤ 5 ∧
     (executeSearches cfgC4 (extractSearchQueries "SEARCH: alpha query\nrest")).length =
       (extractSearchQueries "SEARCH: alpha query\nrest").length ∧
     (runAgentTurn cfgC4 w0 "research-scout" 1).session.messages =
       w0.session.messages ++
         [mkTurnMsg cfgC4 researchScout "research-scout" (phaseNameOf 1)
           "SEARCH: leftover query" w0] ∧
     (runAgentTurn cfgC4 w0 "research-scout" 1).db.messages =
       w0.db.messages ++
         [mkTurnMsg cfgC4 researchScout "research-scout" (phaseNameOf 1)
           "SEARCH: leftover query" w0] ∧
     (mkTurnMsg cfgC4 researchScout "research-scout" (phaseNameOf 1)
       "SEARCH: leftover query" w0).content = "SEARCH: leftover query" ∧
     (runAgentTurn cfgC4 w0 "research-scout" 1).events = w0.events ++
       [.agentState "research-scout" .thinking,
        .agentState "research-scout" .searching,
        .searchStarted "research-scout" (extractSearchQueries "SEARCH: alpha query\nrest"),
        .searchComplete "research-scout"
          (totalSources (executeSearches cfgC4 (extractSearchQueries "SEARCH: alpha query\nrest"))),
        .agentState "research-scout" .thinking,
        .agentState "research-scout" .speaking,
        .message (mkTurnMsg cfgC4 researchScout "research-scout" (phaseNameOf 1)
          "SEARCH: leftover query" w0)] ++
       (turnEscs cfgC4 "research-scout" "SEARCH: leftover query" w0).map
         (fun e => .escalation e researchScout.name researchScout.emoji) ++
       [.agentState "research-scout" .idle]) :=
  ⟨⟨by decide, rfl⟩,
   claimC4 cfgC4 w0 1 researchScout "SEARCH: alpha query\nrest" "SEARCH: leftover query"
     rfl rfl rfl (by decide) rfl⟩

/-- C8: phases execute in the fixed declared order with no phase skipped
before a stop (the `phase-change` trace of any full deliberation is a
prefix of the declared plan), and — for a session with no files and no
search gateway, a quiet environment and an always-succeeding Model
Gateway — exactly 15 turns run (3, 4, 4, 3, 1 across the five phases),
each agent inside its own phase roster in roster order, no search
sub-protocol starts, the run ends with the memory and database active
flags cleared, and at least one message is tagged with phase
`Synthesis`. -/
theorem claimC8 (cfg : Config) (env : Env) (sid problem : String) (t : Nat)
    (hgw : GwOk cfg) (htav : cfg.tavily = false) (henv : EnvTrivial env) :
    (∀ (cfg2 : Config) (env2 : Env) (w : World), ∃ j δ, j ≤ PHASES.length ∧
      (runDeliberation cfg2 env2 w).events = w.events ++ δ ∧
      δ.filterMap phaseProj =
        (PHASES.enum.take j).map (fun p => (p.1, p.2.name, p.2.agents))) ∧
    (runDeliberation cfg env (mkWorld sid problem [] t)).session.messages.map
        (fun m => (m.agentId, m.phase)) =
      [("process-architect", "Problem Framing"), ("research-scout", "Problem Framing"),
       ("systems-synthesizer", "Problem Framing"),
       ("divergent-generator", "Divergence"), ("systems-synthesizer", "Divergence"),
       ("quantitative-expert", "Divergence"), ("qualitative-expert", "Divergence"),
       ("convergent-evaluator", "Convergence"), ("quantitative-expert", "Convergence"),
       ("qualitative-expert", "Convergence"), ("research-scout", "Convergence"),
       ("red-teamer", "Red Team"), ("convergent-evaluator", "Red Team"),
       ("process-architect", "Red Team"),
       ("process-architect", "Synthesis")] ∧
    (runDeliberation cfg env (mkWorld sid problem [] t)).session.active = false ∧
    (runDeliberation cfg env (mkWorld sid problem [] t)).db.sessionActive = false ∧
    (∃ δ, (runDeliberation cfg env (mkWorld sid problem [] t)).events = δ ∧
      (∀ e ∈ δ, evSearchStart e = false) ∧
      δ.filterMap phaseProj =
        [(0, "Problem Framing", ["process-architect", "research-scout", "systems-synthesizer"]),
         (1, "Divergence", ["divergent-generator", "systems-synthesizer",
            "quantitative-expert", "qualitative-expert"]),
         (2, "Convergence", ["convergent-evaluator", "quantitative-expert",
            "qualitative-expert", "research-scout"]),
         (3, "Red Team", ["red-teamer", "convergent-evaluator", "process-architect"]),
         (4, "Synthesis", ["process-architect"])]) ∧
    (∃ m ∈ (runDeliberation cfg env (mkWorld sid problem [] t)).session.messages,
      m.phase = "Synthesis") := by
  have hval : ∀ p ∈ PHASES.enum, ∀ a ∈ p.2.agents,
      (AGENTS.find? (fun x => x.id = a)).isSome = true := by decide
  obtain ⟨pm, pa, δ, pe, ps, pp⟩ := runPhases_run cfg env hgw htav henv PHASES.enum
    (mkWorld sid problem [] t) hval rfl
  obtain ⟨c1, c2, c3, c4, c5, c6, c7⟩ := completeDeliberation_spec cfg
    (runPhases cfg env (mkWorld sid problem [] t) PHASES.enum)
  have hD : runDeliberation cfg env (mkWorld sid problem [] t) =
      completeDeliberation cfg (runPhases cfg env (mkWorld sid problem [] t) PHASES.enum) := rfl
  have hmap : (runDeliberation cfg env (mkWorld sid problem [] t)).session.messages.map
      (fun m => (m.agentId, m.phase)) =
      [("process-architect", "Problem Framing"), ("research-scout", "Problem Framing"),
       ("systems-synthesizer", "Problem Framing"),
       ("divergent-generator", "Divergence"), ("systems-synthesizer", "Divergence"),
       ("quantitative-expert", "Divergence"), ("qualitative-expert", "Divergence"),
       ("convergent-evaluator", "Convergence"), ("quantitative-expert", "Convergence"),
       ("qualitative-expert", "Convergence"), ("research-scout", "Convergence"),
       ("red-teamer", "Red Team"), ("convergent-evaluator", "Red Team"),
       ("process-architect", "Red Team"),
       ("process-architect", "Synthesis")] := by
    rw [hD, c2, pm]
    rfl
  refine ⟨?_, hmap, ?_, ?_, ?_, ?_⟩
  · intro cfg2 env2 w
    obtain ⟨j, δ2, ms2, hj, he, hf, _, _, _, _⟩ := runPhases_frame cfg2 env2 PHASES.enum w
    obtain ⟨d1, _, _, _, _, _, _⟩ := completeDeliberation_spec cfg2
      (runPhases cfg2 env2 w PHASES.enum)
    have hD2 : runDeliberation cfg2 env2 w =
        completeDeliberation cfg2 (runPhases cfg2 env2 w PHASES.enum) := rfl
    refine ⟨j, δ2 ++ [.deliberationComplete
        (runPhases cfg2 env2 w PHASES.enum).session.messages.length
        (((runPhases cfg2 env2 w PHASES.enum).db.messages.filter
          (fun m => m.phase = "Synthesis")).length)
        (runPhases cfg2 env2 w PHASES.enum).db.escalations.length], ?_, ?_, ?_⟩
    · simpa using hj
    · rw [hD2, d1, he]
      simp [List.append_assoc]
    · simp [List.filterMap_append, hf, phaseProj]
  · rw [hD]
    exact c4
  · rw [hD]
    exact c5
  · refine ⟨δ ++ [.deliberationComplete
        (runPhases cfg env (mkWorld sid problem [] t) PHASES.enum).session.messages.length
        (((runPhases cfg env (mkWorld sid problem [] t) PHASES.enum).db.messages.filter
          (fun m => m.phase = "Synthesis")).length)
        (runPhases cfg env (mkWorld sid problem [] t) PHASES.enum).db.escalations.length],
      ?_, ?_, ?_⟩
    · rw [hD, c1, pe]
      rfl
    · intro e he
      rcases List.mem_append.mp he with h | h
      · exact ps e h
      · simp only [List.mem_singleton] at h
        simp [h, evSearchStart]
    · simp only [List.filterMap_append, pp]
      rfl
  · have hmem : ("process-architect", "Synthesis") ∈
        (runDeliberation cfg env (mkWorld sid problem [] t)).session.messages.map
          (fun m => (m.agentId, m.phase)) := by
      rw [hmap]
      simp
    obtain ⟨m, hm, hpair⟩ := List.mem_map.mp hmem
    exact ⟨m, hm, congrArg Prod.snd hpair⟩

/-- Closed witness for `claimC8`: the quiet configuration `cfgW` (gateway
always answers, no search gateway) and the quiet environment `envW` on a
fresh session. -/
theorem claimC8_witness :
    GwOk cfgW ∧ cfgW.tavily = false ∧ EnvTrivial envW ∧
    ((runDeliberation cfgW envW (mkWorld "s" "p" [] 0)).session.messages.map
        (fun m => (m.agentId, m.phase)) =
      [("process-architect", "Problem Framing"), ("research-scout", "Problem Framing"),
       ("systems-synthesizer", "Problem Framing"),
       ("divergent-generator", "Divergence"), ("systems-synthesizer", "Divergence"),
       ("quantitative-expert", "Divergence"), ("qualitative-expert", "Divergence"),
       ("convergent-evaluator", "Convergence"), ("quantitative-expert", "Convergence"),
       ("qualitative-expert", "Convergence"), ("research-scout", "Convergence"),
       ("red-teamer", "Red Team"), ("convergent-evaluator", "Red Team"),
       ("process-architect", "Red Team"),
       ("process-architect", "Synthesis")] ∧
     (runDeliberation cfgW envW (mkWorld "s" "p" [] 0)).session.active = false ∧
     (runDeliberation cfgW envW (mkWorld "s" "p" [] 0)).db.sessionActive = false) := by
  have hgw : GwOk cfgW := fun sp msgs => ⟨"noted", rfl⟩
  have h := claimC8 cfgW envW "s" "p" 0 hgw rfl (fun n => rfl)
  exact ⟨hgw, rfl, fun n => rfl, h.2.1, h.2.2.1, h.2.2.2.1⟩

end WarRoom
